import Mathlib

/-!
Shallow embedding of the stwo-gpu-backend host layer: the device buffer handles
(src/stwo_gpu_backend/src/cuda/base_field_vec.rs, secure_field_vec.rs) and the FRI
round operations `fold_line` and `decompose` (src/stwo_gpu_backend/src/fri.rs).

Device memory is modelled as an association list from device pointers to the list of
base-field values stored at each pointer, together with a fresh-pointer counter.  The
CUDA kernels behind the `bindings` module are not part of src/, so they are modelled
from the spec's Kernel Call Boundary contract (spec section 6); each such definition
carries a doc comment starting with "Modelled from the spec".  Counts that cross the
boundary as `u32` (Rust `as u32` casts) are taken modulo 2^32, faithfully to Rust
cast semantics.  Undefined behavior (out-of-range device reads, reading uninitialized
host memory) is modelled as `none`; `assert!`/arithmetic-underflow panics in
`fold_line` are modelled as `Except.error` values.
-/

/-- The base field `M31`: integers modulo the Mersenne prime 2^31 - 1 (spec section 3). -/
abbrev M31 : Type := ZMod 2147483647

/-- Primality of the M31 modulus, certified by the Lucas-Lehmer test. -/
theorem m31_prime : Nat.Prime 2147483647 := by
  have h : 2147483647 = mersenne 31 := by norm_num [mersenne]
  rw [h]
  exact lucas_lehmer_sufficiency 31 (by norm_num) (by norm_num)

instance : Fact (Nat.Prime 2147483647) := ⟨m31_prime⟩

/-- The degree-2 extension coordinates, mirroring stwo's CM31 as a pair of M31. -/
abbrev CM31 : Type := M31 × M31

/-- The SecureField `QM31`: four M31 coordinates as a pair of CM31 pairs, so the
source's coordinate accessors `lambda.0.0`, `lambda.0.1`, `lambda.1.0`, `lambda.1.1`
are `.1.1`, `.1.2`, `.2.1`, `.2.2`.  Addition and subtraction are coordinatewise via
the product instances, matching the extension-field structure. -/
abbrev QM31 : Type := CM31 × CM31

/-- stwo's `SecureField::from_m31(a, b, c, d)`. -/
def QM31.from_m31 (a b c d : M31) : QM31 := ((a, b), (c, d))

/-- First coordinate (source `x.0.0`). -/
def QM31.c00 (x : QM31) : M31 := x.1.1

/-- Second coordinate (source `x.0.1`). -/
def QM31.c01 (x : QM31) : M31 := x.1.2

/-- Third coordinate (source `x.1.0`). -/
def QM31.c10 (x : QM31) : M31 := x.2.1

/-- Fourth coordinate (source `x.1.1`). -/
def QM31.c11 (x : QM31) : M31 := x.2.2

/-- The coordinates of a SecureField value, indexed in source order. -/
def coordOf (j : Fin 4) (x : QM31) : M31 := ![x.c00, x.c01, x.c10, x.c11] j

/-- Modelled from the spec: division of a SecureField by a BaseField scalar promoted
into the extension field (spec 4.3 step 2) is coordinatewise multiplication by the
exact modular inverse of the scalar (spec 4.3 "Numeric care"); the concrete field
arithmetic lives in the external stwo crate, not under src/. -/
def QM31.divByBase (x : QM31) (m : M31) : QM31 :=
  QM31.from_m31 (x.c00 * m⁻¹) (x.c01 * m⁻¹) (x.c10 * m⁻¹) (x.c11 * m⁻¹)

/-- The modulus of the boundary's `u32` count type. -/
abbrev U32 : Nat := 4294967296

/-- Device state: a fresh-pointer counter and an association list from device
pointers to the stored base-field words (most recent binding first). -/
structure GpuState where
  nextPtr : Nat
  mem : List (Nat × List M31)
deriving DecidableEq

/-- Association-list lookup for device memory. -/
def lookupMem : List (Nat × List M31) → Nat → Option (List M31)
  | [], _ => none
  | (q, ws) :: rest, p => if p = q then some ws else lookupMem rest p

/-- Read the contents stored at a device pointer. -/
def GpuState.read (st : GpuState) (p : Nat) : Option (List M31) := lookupMem st.mem p

/-- Allocate a fresh device region holding the given words. -/
def GpuState.alloc (st : GpuState) (ws : List M31) : Nat × GpuState :=
  (st.nextPtr, ⟨st.nextPtr + 1, (st.nextPtr, ws) :: st.mem⟩)

/-- Overwrite the contents at an (existing) device pointer. -/
def GpuState.write (st : GpuState) (p : Nat) (ws : List M31) : GpuState :=
  ⟨st.nextPtr, (p, ws) :: st.mem⟩

/-- Wellformedness: every allocated pointer is below the fresh-pointer counter. -/
abbrev GpuState.WF (st : GpuState) : Prop := ∀ e ∈ st.mem, e.1 < st.nextPtr

/-- Modelled from the spec: the `copy_uint32_t_vec_from_host_to_device` binding
(spec 6, copy-to-device): allocates a fresh device region and copies `count`
elements of the host array into it.  The CUDA implementation is not under src/. -/
def bindings.copy_uint32_t_vec_from_host_to_device (st : GpuState) (host : List M31)
    (count : Nat) : Nat × GpuState :=
  st.alloc (host.take count)

/-- Modelled from the spec: the `copy_uint32_t_vec_from_device_to_host` binding
(spec 6, copy-to-host): copies `count` elements back into a caller-owned host
buffer; reading beyond the allocated region is undefined, modelled as `none`. -/
def bindings.copy_uint32_t_vec_from_device_to_host (st : GpuState) (ptr count : Nat) :
    Option (List M31) :=
  (st.read ptr).bind fun ws => if count ≤ ws.length then some (ws.take count) else none

/-- Modelled from the spec: the `sum` binding (spec 6, sum-reduce): full reduction of
`count` elements at the pointer to a single BaseField value. -/
def bindings.sum (st : GpuState) (ptr count : Nat) : Option M31 :=
  (st.read ptr).bind fun ws =>
    if count ≤ ws.length then some ((ws.take count).sum) else none

/-- Modelled from the spec: the `compute_g_values` binding (spec 6,
compute-corrected-column and spec 4.3 step 3): allocates a new column whose i-th
element is `f[i] - lambda` for the given scalar lambda coordinate. -/
def bindings.compute_g_values (st : GpuState) (ptr : Nat) (size : Nat) (lambda : M31) :
    Option (Nat × GpuState) :=
  (st.read ptr).bind fun ws =>
    if size ≤ ws.length then some (st.alloc ((ws.take size).map (fun x => x - lambda)))
    else none

/-- Modelled from the spec: the `fold_circle` binding used by `fold_line`
(spec 6, fold; spec 4.2): for each of the `n / 2` output positions it combines the
pair of input values at even/odd positions `2i`, `2i+1` with the twiddle factor at
`offset + i` and the challenge `alpha`, writing one coordinate per output column.
The exact combination formula is the external FRI-fold arithmetic contract, so it is
a parameter `combine`. -/
def bindings.fold_circle (combine : QM31 → QM31 → M31 → QM31 → QM31) (st : GpuState)
    (domPtr : Nat) (offset n : Nat) (in0 in1 in2 in3 : Nat) (alpha : QM31)
    (out0 out1 out2 out3 : Nat) : Option GpuState :=
  (st.read domPtr).bind fun tw =>
  (st.read in0).bind fun w0 =>
  (st.read in1).bind fun w1 =>
  (st.read in2).bind fun w2 =>
  (st.read in3).bind fun w3 =>
  if n ≤ w0.length ∧ n ≤ w1.length ∧ n ≤ w2.length ∧ n ≤ w3.length ∧
      offset + n / 2 ≤ tw.length ∧ (st.read out0).isSome ∧ (st.read out1).isSome ∧
      (st.read out2).isSome ∧ (st.read out3).isSome then
    let res : Fin 4 → List M31 := fun c =>
      (List.range (n / 2)).map fun i =>
        coordOf c (combine
          (QM31.from_m31 (w0.getD (2 * i) 0) (w1.getD (2 * i) 0)
            (w2.getD (2 * i) 0) (w3.getD (2 * i) 0))
          (QM31.from_m31 (w0.getD (2 * i + 1) 0) (w1.getD (2 * i + 1) 0)
            (w2.getD (2 * i + 1) 0) (w3.getD (2 * i + 1) 0))
          (tw.getD (offset + i) 0) alpha)
    some ((((st.write out0 (res 0)).write out1 (res 1)).write out2 (res 2)).write
      out3 (res 3))
  else none

/-- The device buffer handle for base-field columns
(src/cuda/base_field_vec.rs): a raw device pointer plus an element count. -/
structure BaseFieldVec where
  device_ptr : Nat
  size : Nat
deriving DecidableEq

/-- `BaseFieldVec::new`: copies the host array to a fresh device region; the element
count crosses the boundary as `host_array.len() as u32`, i.e. modulo 2^32. -/
def BaseFieldVec.new (st : GpuState) (host_array : List M31) : BaseFieldVec × GpuState :=
  let r := bindings.copy_uint32_t_vec_from_host_to_device st host_array
    (host_array.length % U32)
  (⟨r.1, host_array.length⟩, r.2)

/-- `BaseFieldVec::to_vec`: copies `self.size as u32` elements back into a host vector
of `self.size` elements; when `size ≥ 2^32` part of the host vector stays
uninitialized (`set_len` on uncopied memory), modelled as `none`. -/
def BaseFieldVec.to_vec (st : GpuState) (b : BaseFieldVec) : Option (List M31) :=
  if b.size < U32 then
    bindings.copy_uint32_t_vec_from_device_to_host st b.device_ptr (b.size % U32)
  else none

/-- Modelled from the spec: `BaseFieldVec::new_zeroes` is called by `fold_line` but its
definition is not under src/; per spec 4.1, `construct_zero_filled` allocates a device
region of `length` elements initialized to the additive identity. -/
def BaseFieldVec.new_zeroes (st : GpuState) (n : Nat) : BaseFieldVec × GpuState :=
  let r := st.alloc (List.replicate n 0)
  (⟨r.1, n⟩, r.2)

/-- The derived `Clone` on `BaseFieldVec` (source: `#[derive(Clone, Debug)]`): a
field-for-field copy of the raw device pointer and the size. -/
def BaseFieldVec.clone (b : BaseFieldVec) : BaseFieldVec := ⟨b.device_ptr, b.size⟩

/-- Flatten a list of SecureField values into their 4-per-element coordinate words,
the packed device layout of `SecureFieldVec` (spec section 3). -/
def packWords : List QM31 → List M31
  | [] => []
  | x :: xs => x.c00 :: x.c01 :: x.c10 :: x.c11 :: packWords xs

/-- Regroup a packed coordinate-word list into SecureField values. -/
def group4 : List M31 → List QM31
  | a :: b :: c :: d :: rest => QM31.from_m31 a b c d :: group4 rest
  | _ => []

/-- The device buffer handle for secure-field arrays
(src/cuda/secure_field_vec.rs): `size` SecureField elements stored packed as
`4 * size` words. -/
structure SecureFieldVec where
  device_ptr : Nat
  size : Nat
deriving DecidableEq

/-- `SecureFieldVec::from_vec`: copies the packed words to the device; the word count
crosses the boundary as `4 * host_array.len() as u32`, i.e. `4 * (len % 2^32)`
wrapped to `u32` again. -/
def SecureFieldVec.from_vec (st : GpuState) (host_array : List QM31) :
    SecureFieldVec × GpuState :=
  let r := bindings.copy_uint32_t_vec_from_host_to_device st (packWords host_array)
    ((4 * (host_array.length % U32)) % U32)
  (⟨r.1, host_array.length⟩, r.2)

/-- `SecureFieldVec::to_vec`: copies `4 * self.size as u32` words back and regroups
them; when the wrapped count does not cover the buffer the host vector stays partly
uninitialized, modelled as `none`. -/
def SecureFieldVec.to_vec (st : GpuState) (s : SecureFieldVec) : Option (List QM31) :=
  if 4 * s.size < U32 then
    (bindings.copy_uint32_t_vec_from_device_to_host st s.device_ptr
      ((4 * (s.size % U32)) % U32)).map group4
  else none

/-- The derived `Clone` on `SecureFieldVec`: a field-for-field copy of the raw
device pointer and the size. -/
def SecureFieldVec.clone (s : SecureFieldVec) : SecureFieldVec := ⟨s.device_ptr, s.size⟩

/-- A Secure Column: exactly 4 coordinate device columns (spec section 3). -/
structure SecureColumn where
  columns : Fin 4 → BaseFieldVec

/-- Line-domain descriptor; only its identity and the `double` transform matter here. -/
structure LineDomain where
  logSize : Nat
deriving DecidableEq

/-- Modelled from the spec: the output domain of a fold is the input domain "doubled"
(the standard halving of a FRI-folded domain, spec 4.2); the concrete coset
arithmetic lives in the external stwo crate. -/
def LineDomain.double (d : LineDomain) : LineDomain := ⟨d.logSize - 1⟩

/-- Circle-domain descriptor; carried through `decompose` unchanged. -/
structure CircleDomain where
  logSize : Nat
deriving DecidableEq

/-- A line evaluation: domain metadata plus a Secure Column (spec section 3). -/
structure LineEvaluation where
  domain : LineDomain
  values : SecureColumn

/-- stwo's `LineEvaluation::len()`: the length of the first coordinate column. -/
def LineEvaluation.len (e : LineEvaluation) : Nat := (e.values.columns 0).size

/-- A secure (circle) evaluation: domain metadata plus a Secure Column. -/
structure SecureEvaluation where
  domain : CircleDomain
  values : SecureColumn

/-- Source `eval.columns` (through stwo's deref to the Secure Column). -/
def SecureEvaluation.columns (e : SecureEvaluation) : Fin 4 → BaseFieldVec :=
  e.values.columns

/-- stwo's `SecureEvaluation::len()`: the length of the first coordinate column. -/
def SecureEvaluation.len (e : SecureEvaluation) : Nat := (e.columns 0).size

/-- The Twiddle Tree as consumed by `fold_line`: the inverse-twiddle device column
(`twiddles.itwiddles`), read-only (spec section 3). -/
structure TwiddleTree where
  itwiddles : BaseFieldVec
deriving DecidableEq

/-- Failure modes of `fold_line`: the `assert!(n >= 2)` domain-size panic, the
usize-subtraction underflow at the twiddle-offset computation, and undefined
device-call behavior. -/
inductive FoldErr
  | evaluationTooSmall
  | twiddleUnderflow
  | deviceFault
deriving DecidableEq

/-- `alloc_secure_column_on_gpu_as_array` (fri.rs): four zero-filled device buffers
of length `n`, allocated in order. -/
def alloc_secure_column_on_gpu_as_array (st : GpuState) (n : Nat) :
    (Fin 4 → BaseFieldVec) × GpuState :=
  let r0 := BaseFieldVec.new_zeroes st n
  let r1 := BaseFieldVec.new_zeroes r0.2 n
  let r2 := BaseFieldVec.new_zeroes r1.2 n
  let r3 := BaseFieldVec.new_zeroes r2.2 n
  (![r0.1, r1.1, r2.1, r3.1], r3.2)

/-- `launch_kernel_for_fold` (fri.rs): the one combined device call of `fold_line`. -/
def launch_kernel_for_fold (combine : QM31 → QM31 → M31 → QM31 → QM31) (st : GpuState)
    (eval_values : SecureColumn) (twiddles : TwiddleTree) (twiddle_offset : Nat)
    (folded_values : Fin 4 → BaseFieldVec) (alpha : QM31) (n : Nat) : Option GpuState :=
  bindings.fold_circle combine st twiddles.itwiddles.device_ptr twiddle_offset n
    (eval_values.columns 0).device_ptr (eval_values.columns 1).device_ptr
    (eval_values.columns 2).device_ptr (eval_values.columns 3).device_ptr alpha
    (folded_values 0).device_ptr (folded_values 1).device_ptr
    (folded_values 2).device_ptr (folded_values 3).device_ptr

/-- `CudaBackend::fold_line` (fri.rs): asserts `n >= 2` ("Evaluation too small"),
computes `twiddle_offset = twiddles.itwiddles.size - 2^(n.ilog2())` (the usize
subtraction fails loudly on underflow, per Rust checked-arithmetic semantics),
allocates 4 zero-filled output buffers of length `n >> 1`, launches the fold kernel,
and wraps the result with the doubled domain. -/
def CudaBackend.fold_line (combine : QM31 → QM31 → M31 → QM31 → QM31) (st : GpuState)
    (eval : LineEvaluation) (alpha : QM31) (twiddles : TwiddleTree) :
    Except FoldErr (LineEvaluation × GpuState) :=
  let n := eval.len
  if n < 2 then .error .evaluationTooSmall
  else
    let remaining_folds := Nat.log2 n
    let twiddles_size := twiddles.itwiddles.size
    if twiddles_size < 2 ^ remaining_folds then .error .twiddleUnderflow
    else
      let twiddle_offset := twiddles_size - 2 ^ remaining_folds
      let fv := alloc_secure_column_on_gpu_as_array st (n / 2)
      match launch_kernel_for_fold combine fv.2 eval.values twiddles twiddle_offset
        fv.1 alpha n with
      | none => .error .deviceFault
      | some stOut => .ok (⟨eval.domain.double, ⟨fv.1⟩⟩, stOut)

/-- `CudaBackend::sum` (fri.rs): sum-reduce a column; the count crosses the boundary
as `column_size as u32`. -/
def CudaBackend.sum (st : GpuState) (column : BaseFieldVec) : Option M31 :=
  bindings.sum st column.device_ptr (column.size % U32)

/-- `CudaBackend::compute_g_values` (fri.rs): per-column corrected-column device call;
the size is passed as `usize` (no truncation), and the result handle carries the
same size. -/
def CudaBackend.compute_g_values (st : GpuState) (f_values : BaseFieldVec)
    (lambda : M31) : Option (BaseFieldVec × GpuState) :=
  (bindings.compute_g_values st f_values.device_ptr f_values.size lambda).map
    fun r => (⟨r.1, f_values.size⟩, r.2)

/-- `CudaBackend::decompose` (fri.rs): sums the 4 coordinate columns, assembles
`lambda = SecureField::from_m31(a,b,c,d) / M31::from_u32_unchecked(eval.len() as u32)`
(the divisor is the length wrapped to u32, then reduced into the field), then derives
the 4 corrected columns with one `compute_g_values` call each, over the same domain. -/
def CudaBackend.decompose (st : GpuState) (eval : SecureEvaluation) :
    Option ((SecureEvaluation × QM31) × GpuState) :=
  (CudaBackend.sum st (eval.columns 0)).bind fun a =>
  (CudaBackend.sum st (eval.columns 1)).bind fun b =>
  (CudaBackend.sum st (eval.columns 2)).bind fun c =>
  (CudaBackend.sum st (eval.columns 3)).bind fun d =>
  let lambda := QM31.divByBase (QM31.from_m31 a b c d) ((eval.len % U32 : Nat) : M31)
  (CudaBackend.compute_g_values st (eval.columns 0) lambda.c00).bind fun r0 =>
  (CudaBackend.compute_g_values r0.2 (eval.columns 1) lambda.c01).bind fun r1 =>
  (CudaBackend.compute_g_values r1.2 (eval.columns 2) lambda.c10).bind fun r2 =>
  (CudaBackend.compute_g_values r2.2 (eval.columns 3) lambda.c11).bind fun r3 =>
  some ((⟨eval.domain, ⟨![r0.1, r1.1, r2.1, r3.1]⟩⟩, lambda), r3.2)

/-- Zip four coordinate columns into the packed SecureField list they represent. -/
def zip4 : List M31 → List M31 → List M31 → List M31 → List QM31
  | a :: ta, b :: tb, c :: tc, d :: td => QM31.from_m31 a b c d :: zip4 ta tb tc td
  | _, _, _, _ => []

/-- Modelled from the spec: the CPU reference backend's `decompose` on the packed
representation (spec 4.3 and the section-6 acceptance contract of identical
results): `lambda` is the sum of the evaluation divided by its length promoted into
the extension field, and the corrected values are `f[i] - lambda`.  The reference
backend itself is an external collaborator, not under src/. -/
def CpuBackend.decompose (v : List QM31) : List QM31 × QM31 :=
  let lambda := QM31.divByBase v.sum ((v.length : Nat) : M31)
  (v.map (fun x => x - lambda), lambda)

/-- Modelled from the spec: the CPU reference backend's `fold_line` on the packed
representation (spec 4.2): precondition `n >= 2`; `offset = table_size - 2^(log2 n)`;
output position `i` combines the even/odd pair `v[2i]`, `v[2i+1]` with the twiddle
factor at `offset + i` and the challenge, for the same external combination
formula `combine`. -/
def CpuBackend.fold_line (combine : QM31 → QM31 → M31 → QM31 → QM31) (v : List QM31)
    (alpha : QM31) (itw : List M31) : Except FoldErr (List QM31) :=
  if v.length < 2 then .error .evaluationTooSmall
  else if itw.length < 2 ^ Nat.log2 v.length then .error .twiddleUnderflow
  else .ok ((List.range (v.length / 2)).map fun i =>
    combine (v.getD (2 * i) 0) (v.getD (2 * i + 1) 0)
      (itw.getD (itw.length - 2 ^ Nat.log2 v.length + i) 0) alpha)

/-- The SecureField at packed position `j` of four coordinate columns. -/
def packAt (f : Fin 4 → List M31) (j : Nat) : QM31 :=
  QM31.from_m31 ((f 0).getD j 0) ((f 1).getD j 0) ((f 2).getD j 0) ((f 3).getD j 0)

/-- Coordinate column `c` of the fold output, as written by the fold kernel. -/
def foldOut (combine : QM31 → QM31 → M31 → QM31 → QM31) (f : Fin 4 → List M31)
    (itw : List M31) (offset : Nat) (alpha : QM31) (n : Nat) (c : Fin 4) : List M31 :=
  (List.range (n / 2)).map fun i =>
    coordOf c (combine (packAt f (2 * i)) (packAt f (2 * i + 1))
      (itw.getD (offset + i) 0) alpha)

/-- The sums computed by `decompose`'s device reduction over column `j` (only the
first `n % 2^32` elements are reduced, because the count crosses as u32). -/
def dSums (f : Fin 4 → List M31) (n : Nat) (j : Fin 4) : M31 :=
  ((f j).take (n % U32)).sum

/-- The `lambda` computed by `decompose` on columns of claimed length `n`. -/
def dLam (f : Fin 4 → List M31) (n : Nat) : QM31 :=
  QM31.divByBase
    (QM31.from_m31 (dSums f n 0) (dSums f n 1) (dSums f n 2) (dSums f n 3))
    ((n % U32 : Nat) : M31)

/-- Corrected column `j` as produced by `decompose`. -/
def dG (f : Fin 4 → List M31) (n : Nat) (j : Fin 4) : List M31 :=
  (f j).map (fun x => x - coordOf j (dLam f n))

/-- The device state after `decompose`: four fresh allocations holding the corrected
columns. -/
def dState (st : GpuState) (f : Fin 4 → List M31) (n : Nat) : GpuState :=
  ⟨st.nextPtr + 4,
    (st.nextPtr + 3, dG f n 3) :: (st.nextPtr + 2, dG f n 2) ::
    (st.nextPtr + 1, dG f n 1) :: (st.nextPtr, dG f n 0) :: st.mem⟩

/-- The device state after `fold_line`: four fresh zero allocations of length `n / 2`
followed by the kernel's writes of the folded columns into them. -/
def fState (st : GpuState) (combine : QM31 → QM31 → M31 → QM31 → QM31)
    (f : Fin 4 → List M31) (itw : List M31) (offset : Nat) (alpha : QM31) (n : Nat) :
    GpuState :=
  ⟨st.nextPtr + 4,
    (st.nextPtr + 3, foldOut combine f itw offset alpha n 3) ::
    (st.nextPtr + 2, foldOut combine f itw offset alpha n 2) ::
    (st.nextPtr + 1, foldOut combine f itw offset alpha n 1) ::
    (st.nextPtr, foldOut combine f itw offset alpha n 0) ::
    (st.nextPtr + 3, List.replicate (n / 2) 0) ::
    (st.nextPtr + 2, List.replicate (n / 2) 0) ::
    (st.nextPtr + 1, List.replicate (n / 2) 0) ::
    (st.nextPtr, List.replicate (n / 2) 0) :: st.mem⟩

theorem lookupMem_cons (q : Nat) (ws : List M31) (m : List (Nat × List M31)) (p : Nat) :
    lookupMem ((q, ws) :: m) p = if p = q then some ws else lookupMem m p := rfl

theorem lookupMem_key_lt {m : List (Nat × List M31)} {p b : Nat} {ws : List M31}
    (hall : ∀ e ∈ m, e.1 < b) (h : lookupMem m p = some ws) : p < b := by
  induction m with
  | nil => simp [lookupMem] at h
  | cons e rest ih =>
    obtain ⟨q, ws'⟩ := e
    rw [lookupMem_cons] at h
    by_cases hpq : p = q
    · subst hpq
      exact hall (p, ws') (List.mem_cons_self _ _)
    · exact ih (fun e he => hall e (List.mem_cons_of_mem _ he)) (by simpa [hpq] using h)

theorem read_lt_of_WF {st : GpuState} (hwf : st.WF) {p : Nat} {ws : List M31}
    (h : st.read p = some ws) : p < st.nextPtr :=
  lookupMem_key_lt hwf h

theorem take_all {l : List M31} {n : Nat} (h : l.length ≤ n) : l.take n = l :=
  List.take_of_length_le h

/-- Evaluation of `decompose` on a wellformed state: the columns hold the lists
`f j`, all of length `n`, with the handle sizes also `n`; the result is the explicit
lambda, corrected columns at four fresh pointers, and the explicit output state. -/
theorem decompose_eval (st : GpuState) (ev : SecureEvaluation) (f : Fin 4 → List M31)
    (n : Nat) (hwf : st.WF)
    (hc : ∀ j, st.read ((ev.columns j).device_ptr) = some (f j) ∧
      (ev.columns j).size = n ∧ (f j).length = n) :
    CudaBackend.decompose st ev =
      some ((⟨ev.domain, ⟨![⟨st.nextPtr, n⟩, ⟨st.nextPtr + 1, n⟩,
        ⟨st.nextPtr + 2, n⟩, ⟨st.nextPtr + 3, n⟩]⟩⟩, dLam f n), dState st f n) := by
  obtain ⟨hr0, hs0, hl0⟩ := hc 0
  obtain ⟨hr1, hs1, hl1⟩ := hc 1
  obtain ⟨hr2, hs2, hl2⟩ := hc 2
  obtain ⟨hr3, hs3, hl3⟩ := hc 3
  have hp0 : (ev.columns 0).device_ptr < st.nextPtr := read_lt_of_WF hwf hr0
  have hp1 : (ev.columns 1).device_ptr < st.nextPtr := read_lt_of_WF hwf hr1
  have hp2 : (ev.columns 2).device_ptr < st.nextPtr := read_lt_of_WF hwf hr2
  have hp3 : (ev.columns 3).device_ptr < st.nextPtr := read_lt_of_WF hwf hr3
  have hsum : ∀ j, CudaBackend.sum st (ev.columns j) = some (dSums f n j) := by
    intro j
    obtain ⟨hr, hs, hl⟩ := hc j
    unfold CudaBackend.sum bindings.sum
    rw [hr, hs]
    simp only [Option.some_bind]
    rw [if_pos (le_trans (Nat.mod_le n U32) (le_of_eq hl.symm))]
    rfl
  have hlen : ev.len = n := hs0
  unfold CudaBackend.decompose
  rw [hsum 0, hsum 1, hsum 2, hsum 3]
  simp only [Option.some_bind, hlen]
  have hlam : QM31.divByBase
      (QM31.from_m31 (dSums f n 0) (dSums f n 1) (dSums f n 2) (dSums f n 3))
      ((n % U32 : Nat) : M31) = dLam f n := rfl
  rw [hlam]
  -- the four compute_g_values calls, threading the state
  have hg0 : CudaBackend.compute_g_values st (ev.columns 0) (dLam f n).c00 =
      some (⟨st.nextPtr, n⟩,
        ⟨st.nextPtr + 1, (st.nextPtr, dG f n 0) :: st.mem⟩) := by
    unfold CudaBackend.compute_g_values bindings.compute_g_values
    rw [hr0, hs0]
    simp only [Option.some_bind]
    rw [if_pos (le_of_eq hl0.symm), take_all (le_of_eq hl0)]
    simp [GpuState.alloc, dG, coordOf]
  rw [hg0]
  simp only [Option.some_bind]
  have hg1 : CudaBackend.compute_g_values
      ⟨st.nextPtr + 1, (st.nextPtr, dG f n 0) :: st.mem⟩ (ev.columns 1)
      (dLam f n).c01 =
      some (⟨st.nextPtr + 1, n⟩,
        ⟨st.nextPtr + 2, (st.nextPtr + 1, dG f n 1) :: (st.nextPtr, dG f n 0) ::
          st.mem⟩) := by
    unfold CudaBackend.compute_g_values bindings.compute_g_values
    have hread : GpuState.read
        ⟨st.nextPtr + 1, (st.nextPtr, dG f n 0) :: st.mem⟩
        (ev.columns 1).device_ptr = some (f 1) := by
      unfold GpuState.read
      rw [lookupMem_cons, if_neg (by omega)]
      exact hr1
    rw [hread, hs1]
    simp only [Option.some_bind]
    rw [if_pos (le_of_eq hl1.symm), take_all (le_of_eq hl1)]
    simp [GpuState.alloc, dG, coordOf]
  rw [hg1]
  simp only [Option.some_bind]
  have hg2 : CudaBackend.compute_g_values
      ⟨st.nextPtr + 2, (st.nextPtr + 1, dG f n 1) :: (st.nextPtr, dG f n 0) ::
        st.mem⟩ (ev.columns 2) (dLam f n).c10 =
      some (⟨st.nextPtr + 2, n⟩,
        ⟨st.nextPtr + 3, (st.nextPtr + 2, dG f n 2) :: (st.nextPtr + 1, dG f n 1) ::
          (st.nextPtr, dG f n 0) :: st.mem⟩) := by
    unfold CudaBackend.compute_g_values bindings.compute_g_values
    have hread : GpuState.read
        ⟨st.nextPtr + 2, (st.nextPtr + 1, dG f n 1) :: (st.nextPtr, dG f n 0) ::
          st.mem⟩ (ev.columns 2).device_ptr = some (f 2) := by
      unfold GpuState.read
      rw [lookupMem_cons, if_neg (by omega), lookupMem_cons, if_neg (by omega)]
      exact hr2
    rw [hread, hs2]
    simp only [Option.some_bind]
    rw [if_pos (le_of_eq hl2.symm), take_all (le_of_eq hl2)]
    simp [GpuState.alloc, dG, coordOf]
  rw [hg2]
  simp only [Option.some_bind]
  have hg3 : CudaBackend.compute_g_values
      ⟨st.nextPtr + 3, (st.nextPtr + 2, dG f n 2) :: (st.nextPtr + 1, dG f n 1) ::
        (st.nextPtr, dG f n 0) :: st.mem⟩ (ev.columns 3) (dLam f n).c11 =
      some (⟨st.nextPtr + 3, n⟩, dState st f n) := by
    unfold CudaBackend.compute_g_values bindings.compute_g_values
    have hread : GpuState.read
        ⟨st.nextPtr + 3, (st.nextPtr + 2, dG f n 2) :: (st.nextPtr + 1, dG f n 1) ::
          (st.nextPtr, dG f n 0) :: st.mem⟩ (ev.columns 3).device_ptr =
        some (f 3) := by
      unfold GpuState.read
      rw [lookupMem_cons, if_neg (by omega), lookupMem_cons, if_neg (by omega),
        lookupMem_cons, if_neg (by omega)]
      exact hr3
    rw [hread, hs3]
    simp only [Option.some_bind]
    rw [if_pos (le_of_eq hl3.symm), take_all (le_of_eq hl3)]
    simp [GpuState.alloc, dState, dG, coordOf]
  rw [hg3]
  simp only [Option.some_bind]

/-- Arithmetic helper: for `2 ≤ n` and a twiddle table of length at least
`2 ^ log2 n`, the kernel's twiddle reads stay in bounds. -/
theorem fold_offset_bound {n L : Nat} (h2 : 2 ≤ n) (hbig : 2 ^ Nat.log2 n ≤ L) :
    (L - 2 ^ Nat.log2 n) + n / 2 ≤ L := by
  have hk : n < 2 ^ (Nat.log2 n + 1) := Nat.lt_log2_self
  rw [pow_succ] at hk
  omega

/-- Evaluation of `fold_line` on a wellformed state: the input columns hold the
lists `f j` of length `n = eval.len`, the twiddle column holds `itw` with its handle
size equal to its length; with `2 ≤ n` and a large enough table the result is the
doubled domain, four fresh output handles of size `n / 2`, and the explicit output
state. -/
theorem fold_line_eval (combine : QM31 → QM31 → M31 → QM31 → QM31) (st : GpuState)
    (ev : LineEvaluation) (alpha : QM31) (tw : TwiddleTree) (f : Fin 4 → List M31)
    (itw : List M31) (hwf : st.WF)
    (hc : ∀ j, st.read ((ev.values.columns j).device_ptr) = some (f j) ∧
      (f j).length = ev.len)
    (htw : st.read tw.itwiddles.device_ptr = some itw)
    (hsz : tw.itwiddles.size = itw.length)
    (h2 : 2 ≤ ev.len)
    (hbig : 2 ^ Nat.log2 ev.len ≤ itw.length) :
    CudaBackend.fold_line combine st ev alpha tw = .ok
      (⟨ev.domain.double, ⟨![⟨st.nextPtr, ev.len / 2⟩, ⟨st.nextPtr + 1, ev.len / 2⟩,
        ⟨st.nextPtr + 2, ev.len / 2⟩, ⟨st.nextPtr + 3, ev.len / 2⟩]⟩⟩,
        fState st combine f itw (itw.length - 2 ^ Nat.log2 ev.len) alpha ev.len) := by
  obtain ⟨hr0, hl0⟩ := hc 0
  obtain ⟨hr1, hl1⟩ := hc 1
  obtain ⟨hr2, hl2⟩ := hc 2
  obtain ⟨hr3, hl3⟩ := hc 3
  have hp0 : (ev.values.columns 0).device_ptr < st.nextPtr := read_lt_of_WF hwf hr0
  have hp1 : (ev.values.columns 1).device_ptr < st.nextPtr := read_lt_of_WF hwf hr1
  have hp2 : (ev.values.columns 2).device_ptr < st.nextPtr := read_lt_of_WF hwf hr2
  have hp3 : (ev.values.columns 3).device_ptr < st.nextPtr := read_lt_of_WF hwf hr3
  have hptw : tw.itwiddles.device_ptr < st.nextPtr := read_lt_of_WF hwf htw
  unfold CudaBackend.fold_line
  rw [if_neg (Nat.not_lt.mpr h2), hsz, if_neg (Nat.not_lt.mpr hbig)]
  have halloc : alloc_secure_column_on_gpu_as_array st (ev.len / 2) =
      (![⟨st.nextPtr, ev.len / 2⟩, ⟨st.nextPtr + 1, ev.len / 2⟩,
        ⟨st.nextPtr + 2, ev.len / 2⟩, ⟨st.nextPtr + 3, ev.len / 2⟩],
       ⟨st.nextPtr + 4,
        (st.nextPtr + 3, List.replicate (ev.len / 2) 0) ::
        (st.nextPtr + 2, List.replicate (ev.len / 2) 0) ::
        (st.nextPtr + 1, List.replicate (ev.len / 2) 0) ::
        (st.nextPtr, List.replicate (ev.len / 2) 0) :: st.mem⟩) := rfl
  rw [halloc]
  have hlaunch : launch_kernel_for_fold combine
      ⟨st.nextPtr + 4,
        (st.nextPtr + 3, List.replicate (ev.len / 2) 0) ::
        (st.nextPtr + 2, List.replicate (ev.len / 2) 0) ::
        (st.nextPtr + 1, List.replicate (ev.len / 2) 0) ::
        (st.nextPtr, List.replicate (ev.len / 2) 0) :: st.mem⟩
      ev.values tw (itw.length - 2 ^ Nat.log2 ev.len)
      ![⟨st.nextPtr, ev.len / 2⟩, ⟨st.nextPtr + 1, ev.len / 2⟩,
        ⟨st.nextPtr + 2, ev.len / 2⟩, ⟨st.nextPtr + 3, ev.len / 2⟩] alpha ev.len =
      some (fState st combine f itw (itw.length - 2 ^ Nat.log2 ev.len) alpha
        ev.len) := by
    unfold launch_kernel_for_fold bindings.fold_circle
    have hread : ∀ p, p < st.nextPtr → ∀ ws, st.read p = some ws →
        GpuState.read
          ⟨st.nextPtr + 4,
            (st.nextPtr + 3, List.replicate (ev.len / 2) 0) ::
            (st.nextPtr + 2, List.replicate (ev.len / 2) 0) ::
            (st.nextPtr + 1, List.replicate (ev.len / 2) 0) ::
            (st.nextPtr, List.replicate (ev.len / 2) 0) :: st.mem⟩ p = some ws := by
      intro p hp ws hws
      unfold GpuState.read
      rw [lookupMem_cons, if_neg (by omega), lookupMem_cons, if_neg (by omega),
        lookupMem_cons, if_neg (by omega), lookupMem_cons, if_neg (by omega)]
      exact hws
    rw [hread _ hptw _ htw, hread _ hp0 _ hr0, hread _ hp1 _ hr1,
      hread _ hp2 _ hr2, hread _ hp3 _ hr3]
    simp only [Option.some_bind]
    rw [if_pos]
    · rfl
    · refine ⟨le_of_eq hl0.symm, le_of_eq hl1.symm, le_of_eq hl2.symm,
        le_of_eq hl3.symm, fold_offset_bound h2 hbig, ?_, ?_, ?_, ?_⟩
      · show (GpuState.read _ st.nextPtr).isSome = true
        unfold GpuState.read
        rw [lookupMem_cons, if_neg (by omega), lookupMem_cons, if_neg (by omega),
          lookupMem_cons, if_neg (by omega), lookupMem_cons, if_pos rfl]
        rfl
      · show (GpuState.read _ (st.nextPtr + 1)).isSome = true
        unfold GpuState.read
        rw [lookupMem_cons, if_neg (by omega), lookupMem_cons, if_neg (by omega),
          lookupMem_cons, if_pos rfl]
        rfl
      · show (GpuState.read _ (st.nextPtr + 2)).isSome = true
        unfold GpuState.read
        rw [lookupMem_cons, if_neg (by omega), lookupMem_cons, if_pos rfl]
        rfl
      · show (GpuState.read _ (st.nextPtr + 3)).isSome = true
        unfold GpuState.read
        rw [lookupMem_cons, if_pos rfl]
        rfl
  simp only [hlaunch]

theorem dState_read_old (st : GpuState) (f : Fin 4 → List M31) (n : Nat) (p : Nat)
    (hp : p < st.nextPtr) : (dState st f n).read p = st.read p := by
  unfold dState GpuState.read
  rw [lookupMem_cons, if_neg (by omega), lookupMem_cons, if_neg (by omega),
    lookupMem_cons, if_neg (by omega), lookupMem_cons, if_neg (by omega)]

theorem dState_read_cols (st : GpuState) (f : Fin 4 → List M31) (n : Nat) :
    (dState st f n).read st.nextPtr = some (dG f n 0) ∧
    (dState st f n).read (st.nextPtr + 1) = some (dG f n 1) ∧
    (dState st f n).read (st.nextPtr + 2) = some (dG f n 2) ∧
    (dState st f n).read (st.nextPtr + 3) = some (dG f n 3) := by
  refine ⟨?_, ?_, ?_, ?_⟩ <;>
    (unfold dState GpuState.read
     repeat first
       | rw [lookupMem_cons, if_pos rfl]
       | rw [lookupMem_cons, if_neg (by omega)])

theorem dState_WF {st : GpuState} (f : Fin 4 → List M31) (n : Nat) (hwf : st.WF) :
    (dState st f n).WF := by
  intro e he
  have hnp : (dState st f n).nextPtr = st.nextPtr + 4 := rfl
  rw [hnp]
  unfold dState at he
  simp only [List.mem_cons] at he
  rcases he with rfl | rfl | rfl | rfl | he
  · exact (by omega : st.nextPtr + 3 < st.nextPtr + 4)
  · exact (by omega : st.nextPtr + 2 < st.nextPtr + 4)
  · exact (by omega : st.nextPtr + 1 < st.nextPtr + 4)
  · exact (by omega : st.nextPtr < st.nextPtr + 4)
  · have := hwf e he
    omega

theorem fState_read_old (st : GpuState) (combine : QM31 → QM31 → M31 → QM31 → QM31)
    (f : Fin 4 → List M31) (itw : List M31) (offset : Nat) (alpha : QM31) (n : Nat)
    (p : Nat) (hp : p < st.nextPtr) :
    (fState st combine f itw offset alpha n).read p = st.read p := by
  unfold fState GpuState.read
  rw [lookupMem_cons, if_neg (by omega), lookupMem_cons, if_neg (by omega),
    lookupMem_cons, if_neg (by omega), lookupMem_cons, if_neg (by omega),
    lookupMem_cons, if_neg (by omega), lookupMem_cons, if_neg (by omega),
    lookupMem_cons, if_neg (by omega), lookupMem_cons, if_neg (by omega)]

theorem fState_read_cols (st : GpuState) (combine : QM31 → QM31 → M31 → QM31 → QM31)
    (f : Fin 4 → List M31) (itw : List M31) (offset : Nat) (alpha : QM31) (n : Nat) :
    (fState st combine f itw offset alpha n).read st.nextPtr =
      some (foldOut combine f itw offset alpha n 0) ∧
    (fState st combine f itw offset alpha n).read (st.nextPtr + 1) =
      some (foldOut combine f itw offset alpha n 1) ∧
    (fState st combine f itw offset alpha n).read (st.nextPtr + 2) =
      some (foldOut combine f itw offset alpha n 2) ∧
    (fState st combine f itw offset alpha n).read (st.nextPtr + 3) =
      some (foldOut combine f itw offset alpha n 3) := by
  refine ⟨?_, ?_, ?_, ?_⟩ <;>
    (unfold fState GpuState.read
     repeat first
       | rw [lookupMem_cons, if_pos rfl]
       | rw [lookupMem_cons, if_neg (by omega)])

theorem foldOut_length (combine : QM31 → QM31 → M31 → QM31 → QM31)
    (f : Fin 4 → List M31) (itw : List M31) (offset : Nat) (alpha : QM31) (n : Nat)
    (c : Fin 4) : (foldOut combine f itw offset alpha n c).length = n / 2 := by
  simp [foldOut]

theorem packWords_length (v : List QM31) : (packWords v).length = 4 * v.length := by
  induction v with
  | nil => rfl
  | cons x xs ih => simp [packWords, ih]; ring

theorem group4_packWords (v : List QM31) : group4 (packWords v) = v := by
  induction v with
  | nil => rfl
  | cons x xs ih => simp [packWords, group4, ih, QM31.from_m31, QM31.c00, QM31.c01,
      QM31.c10, QM31.c11]

theorem zip4_length {a b c d : List M31} (hb : b.length = a.length)
    (hc : c.length = a.length) (hd : d.length = a.length) :
    (zip4 a b c d).length = a.length := by
  induction a generalizing b c d with
  | nil =>
    obtain rfl : b = [] := List.length_eq_zero.mp (by simpa using hb)
    obtain rfl : c = [] := List.length_eq_zero.mp (by simpa using hc)
    obtain rfl : d = [] := List.length_eq_zero.mp (by simpa using hd)
    rfl
  | cons x xs ih =>
    cases b with
    | nil => simp at hb
    | cons y ys =>
      cases c with
      | nil => simp at hc
      | cons z zs =>
        cases d with
        | nil => simp at hd
        | cons w ws =>
          simp only [zip4, List.length_cons]
          rw [ih (by simpa using hb) (by simpa using hc) (by simpa using hd)]

theorem zip4_sum {a b c d : List M31} (hb : b.length = a.length)
    (hc : c.length = a.length) (hd : d.length = a.length) :
    (zip4 a b c d).sum = QM31.from_m31 a.sum b.sum c.sum d.sum := by
  induction a generalizing b c d with
  | nil =>
    obtain rfl : b = [] := List.length_eq_zero.mp (by simpa using hb)
    obtain rfl : c = [] := List.length_eq_zero.mp (by simpa using hc)
    obtain rfl : d = [] := List.length_eq_zero.mp (by simpa using hd)
    rfl
  | cons x xs ih =>
    cases b with
    | nil => simp at hb
    | cons y ys =>
      cases c with
      | nil => simp at hc
      | cons z zs =>
        cases d with
        | nil => simp at hd
        | cons w ws =>
          simp only [zip4, List.sum_cons]
          rw [ih (by simpa using hb) (by simpa using hc) (by simpa using hd)]
          simp [QM31.from_m31, Prod.mk_add_mk]

theorem zip4_map_sub {a b c d : List M31} (lam : QM31) (hb : b.length = a.length)
    (hc : c.length = a.length) (hd : d.length = a.length) :
    zip4 (a.map (fun x => x - lam.c00)) (b.map (fun x => x - lam.c01))
      (c.map (fun x => x - lam.c10)) (d.map (fun x => x - lam.c11)) =
    (zip4 a b c d).map (fun x => x - lam) := by
  induction a generalizing b c d with
  | nil =>
    obtain rfl : b = [] := List.length_eq_zero.mp (by simpa using hb)
    obtain rfl : c = [] := List.length_eq_zero.mp (by simpa using hc)
    obtain rfl : d = [] := List.length_eq_zero.mp (by simpa using hd)
    rfl
  | cons x xs ih =>
    cases b with
    | nil => simp at hb
    | cons y ys =>
      cases c with
      | nil => simp at hc
      | cons z zs =>
        cases d with
        | nil => simp at hd
        | cons w ws =>
          simp only [List.map_cons, zip4, List.map]
          rw [ih (by simpa using hb) (by simpa using hc) (by simpa using hd)]
          simp [QM31.from_m31, QM31.c00, QM31.c01, QM31.c10, QM31.c11,
            Prod.ext_iff, Prod.fst_sub, Prod.snd_sub]

theorem zip4_getD {a b c d : List M31} {i : Nat} (hb : b.length = a.length)
    (hc : c.length = a.length) (hd : d.length = a.length) (hi : i < a.length) :
    (zip4 a b c d).getD i 0 =
      QM31.from_m31 (a.getD i 0) (b.getD i 0) (c.getD i 0) (d.getD i 0) := by
  induction a generalizing b c d i with
  | nil => simp at hi
  | cons x xs ih =>
    cases b with
    | nil => simp at hb
    | cons y ys =>
      cases c with
      | nil => simp at hc
      | cons z zs =>
        cases d with
        | nil => simp at hd
        | cons w ws =>
          cases i with
          | zero => rfl
          | succ k =>
            simp only [zip4, List.getD_cons_succ]
            exact ih (by simpa using hb) (by simpa using hc) (by simpa using hd)
              (by simpa using hi)

theorem zip4_map {α : Type} (l : List α) (F0 F1 F2 F3 : α → M31) :
    zip4 (l.map F0) (l.map F1) (l.map F2) (l.map F3) =
      l.map (fun i => QM31.from_m31 (F0 i) (F1 i) (F2 i) (F3 i)) := by
  induction l with
  | nil => rfl
  | cons x xs ih => simp only [List.map_cons, zip4, ih]

theorem sum_map_sub_const (l : List M31) (c : M31) :
    (l.map (fun x => x - c)).sum = l.sum - l.length • c := by
  induction l with
  | nil => simp
  | cons x xs ih =>
    simp only [List.map_cons, List.sum_cons, ih, List.length_cons, succ_nsmul]
    ring

theorem roundtrip_base (st : GpuState) (v : List M31) (hvU : v.length < U32) :
    BaseFieldVec.to_vec (BaseFieldVec.new st v).2 (BaseFieldVec.new st v).1 = some v := by
  simp [BaseFieldVec.new, BaseFieldVec.to_vec,
    bindings.copy_uint32_t_vec_from_host_to_device,
    bindings.copy_uint32_t_vec_from_device_to_host, GpuState.alloc, GpuState.read,
    lookupMem_cons, Nat.mod_eq_of_lt hvU, List.take_length, hvU]

theorem roundtrip_secure (st : GpuState) (w : List QM31) (hwU : w.length < U32)
    (hw4 : 4 * w.length < U32) :
    SecureFieldVec.to_vec (SecureFieldVec.from_vec st w).2
      (SecureFieldVec.from_vec st w).1 = some w := by
  have hcount : (4 * (w.length % U32)) % U32 = (packWords w).length := by
    rw [Nat.mod_eq_of_lt hwU, Nat.mod_eq_of_lt hw4, packWords_length]
  simp [SecureFieldVec.from_vec, SecureFieldVec.to_vec,
    bindings.copy_uint32_t_vec_from_host_to_device,
    bindings.copy_uint32_t_vec_from_device_to_host, GpuState.alloc, GpuState.read,
    lookupMem_cons, hcount, List.take_length, hw4, group4_packWords]

/-- C2: for every host array of BaseField (or SecureField) values of any length in
the stated range — empty, length one, and up to 2^25 — constructing a device buffer
handle from it and materializing it back to host yields the original array. -/
theorem C2_roundtrip (st : GpuState) (v : List M31) (w : List QM31)
    (hv : v.length ≤ 2 ^ 25) (hw : w.length ≤ 2 ^ 25) :
    BaseFieldVec.to_vec (BaseFieldVec.new st v).2 (BaseFieldVec.new st v).1 = some v ∧
    SecureFieldVec.to_vec (SecureFieldVec.from_vec st w).2
      (SecureFieldVec.from_vec st w).1 = some w := by
  have h25 : (2 : Nat) ^ 25 = 33554432 := by norm_num
  rw [h25] at hv hw
  refine ⟨roundtrip_base st v (by show v.length < 4294967296; omega),
    roundtrip_secure st w (by show w.length < 4294967296; omega)
      (by show 4 * w.length < 4294967296; omega)⟩

/-- Witness for C2: concrete arrays, including the spec's concrete scenario of
SecureField values built from consecutive small integers, round-trip unchanged. -/
theorem C2_roundtrip_witness :
    BaseFieldVec.to_vec (BaseFieldVec.new ⟨0, []⟩ [(1 : M31), 2, 3]).2
      (BaseFieldVec.new ⟨0, []⟩ [(1 : M31), 2, 3]).1 = some [(1 : M31), 2, 3] ∧
    SecureFieldVec.to_vec
      (SecureFieldVec.from_vec ⟨0, []⟩ [QM31.from_m31 1 2 3 4, QM31.from_m31 5 6 7 8]).2
      (SecureFieldVec.from_vec ⟨0, []⟩ [QM31.from_m31 1 2 3 4, QM31.from_m31 5 6 7 8]).1 =
      some [QM31.from_m31 1 2 3 4, QM31.from_m31 5 6 7 8] :=
  C2_roundtrip ⟨0, []⟩ [(1 : M31), 2, 3]
    [QM31.from_m31 1 2 3 4, QM31.from_m31 5 6 7 8] (by norm_num) (by norm_num)

/-- C3: `fold_line` fails with the domain-size error (`assert!(n >= 2)`,
"Evaluation too small") exactly when the input evaluation length is 0 or 1, before
any allocation or device call; for `n >= 2` the domain-size check passes and the
operation proceeds past it. -/
theorem C3_domain_size_check (combine : QM31 → QM31 → M31 → QM31 → QM31)
    (st : GpuState) (ev : LineEvaluation) (alpha : QM31) (tw : TwiddleTree) :
    CudaBackend.fold_line combine st ev alpha tw =
      .error .evaluationTooSmall ↔ ev.len < 2 := by
  unfold CudaBackend.fold_line
  by_cases h : ev.len < 2
  · simp [h]
  · simp only [if_neg h]
    constructor
    · intro hcontra
      exfalso
      by_cases ht : tw.itwiddles.size < 2 ^ Nat.log2 ev.len
      · rw [if_pos ht] at hcontra
        simp at hcontra
      · rw [if_neg ht] at hcontra
        split at hcontra <;> simp_all
    · intro hlt
      exact absurd hlt h

/-- C4: the derived `Clone` on both handle types is a shallow copy: the clone's
device pointer equals the original's, so two live handles reference the same device
allocation — contradicting the requirement that a copy be forbidden or be a deep
copy with a fresh pointer (the defect the spec flags in section 9). -/
theorem C4_clone_shallow (b : BaseFieldVec) (s : SecureFieldVec) :
    b.clone.device_ptr = b.device_ptr ∧ s.clone.device_ptr = s.device_ptr :=
  ⟨rfl, rfl⟩

/-- C7: the boundary count conversions silently truncate instead of failing loudly:
constructing from a host array of 2^32 BaseField elements (or of 2^30 SecureField
elements, i.e. 2^32 words) succeeds, stores zero words on the device because
`len as u32` wraps to 0, and reports the full untruncated length as the handle
size. -/
theorem C7_silent_truncation :
    ((BaseFieldVec.new ⟨0, []⟩ (List.replicate U32 0)).1.size = U32 ∧
      (BaseFieldVec.new ⟨0, []⟩ (List.replicate U32 0)).2.read
        (BaseFieldVec.new ⟨0, []⟩ (List.replicate U32 0)).1.device_ptr = some []) ∧
    ((SecureFieldVec.from_vec ⟨0, []⟩ (List.replicate 1073741824 0)).1.size =
        1073741824 ∧
      (SecureFieldVec.from_vec ⟨0, []⟩ (List.replicate 1073741824 0)).2.read
        (SecureFieldVec.from_vec ⟨0, []⟩
          (List.replicate 1073741824 0)).1.device_ptr = some []) := by
  have hb : (List.replicate U32 (0 : M31)).length % U32 = 0 := by
    rw [List.length_replicate, Nat.mod_self]
  have hs : (4 * ((List.replicate 1073741824 (0 : QM31)).length % U32)) % U32 = 0 := by
    rw [List.length_replicate]
    norm_num
  refine ⟨⟨?_, ?_⟩, ?_, ?_⟩
  · show (List.replicate U32 (0 : M31)).length = U32
    exact List.length_replicate ..
  · show lookupMem [(0, (List.replicate U32 (0 : M31)).take
        ((List.replicate U32 (0 : M31)).length % U32))] 0 = some []
    rw [hb, List.take_zero, lookupMem_cons, if_pos rfl]
  · show (List.replicate 1073741824 (0 : QM31)).length = 1073741824
    exact List.length_replicate ..
  · show lookupMem [(0, (packWords (List.replicate 1073741824 (0 : QM31))).take
        ((4 * ((List.replicate 1073741824 (0 : QM31)).length % U32)) % U32))] 0 =
      some []
    rw [hs, List.take_zero, lookupMem_cons, if_pos rfl]

/-- C10: for `n ≥ 2`, when the inverse-twiddle table size is at least
`2^(log2 n)` the twiddle-offset subtraction does not underflow (the exact
subtraction identity holds) and `fold_line` does not fail with the underflow error;
when the table is smaller, `fold_line` fails at this subtraction — before any
allocation or device call, as the error return carries no state.  The usize
subtraction underflow is modelled as a loud failure per Rust checked-arithmetic
semantics. -/
theorem C10_twiddle_offset (combine : QM31 → QM31 → M31 → QM31 → QM31)
    (st : GpuState) (ev : LineEvaluation) (alpha : QM31) (tw : TwiddleTree)
    (h2 : 2 ≤ ev.len) :
    (2 ^ Nat.log2 ev.len ≤ tw.itwiddles.size →
      2 ^ Nat.log2 ev.len + (tw.itwiddles.size - 2 ^ Nat.log2 ev.len) =
        tw.itwiddles.size ∧
      CudaBackend.fold_line combine st ev alpha tw ≠ .error .twiddleUnderflow) ∧
    (tw.itwiddles.size < 2 ^ Nat.log2 ev.len →
      CudaBackend.fold_line combine st ev alpha tw = .error .twiddleUnderflow) := by
  constructor
  · intro hle
    refine ⟨by omega, ?_⟩
    unfold CudaBackend.fold_line
    rw [if_neg (Nat.not_lt.mpr h2), if_neg (Nat.not_lt.mpr hle)]
    intro hcontra
    cases hopt : launch_kernel_for_fold combine
        (alloc_secure_column_on_gpu_as_array st (ev.len / 2)).2 ev.values tw
        (tw.itwiddles.size - 2 ^ Nat.log2 ev.len)
        (alloc_secure_column_on_gpu_as_array st (ev.len / 2)).1 alpha ev.len with
    | none => simp [hopt] at hcontra
    | some stOut => simp [hopt] at hcontra
  · intro hlt
    unfold CudaBackend.fold_line
    rw [if_neg (Nat.not_lt.mpr h2), if_pos hlt]

/-- Witness for C10: a length-2 evaluation with a twiddle table of size 1 hits the
underflow branch; the same instantiation also certifies the no-underflow branch
statement. -/
theorem C10_twiddle_offset_witness :
    ((2 : Nat) ^ Nat.log2 2 ≤ (1 : Nat) →
      2 ^ Nat.log2 2 + (1 - 2 ^ Nat.log2 2) = 1 ∧
      CudaBackend.fold_line (fun e _ _ _ => e) ⟨0, []⟩
        ⟨⟨1⟩, ⟨![⟨0, 2⟩, ⟨1, 2⟩, ⟨2, 2⟩, ⟨3, 2⟩]⟩⟩ 0 ⟨⟨4, 1⟩⟩ ≠
        .error .twiddleUnderflow) ∧
    ((1 : Nat) < 2 ^ Nat.log2 2 →
      CudaBackend.fold_line (fun e _ _ _ => e) ⟨0, []⟩
        ⟨⟨1⟩, ⟨![⟨0, 2⟩, ⟨1, 2⟩, ⟨2, 2⟩, ⟨3, 2⟩]⟩⟩ 0 ⟨⟨4, 1⟩⟩ =
        .error .twiddleUnderflow) :=
  C10_twiddle_offset (fun e _ _ _ => e) ⟨0, []⟩
    ⟨⟨1⟩, ⟨![⟨0, 2⟩, ⟨1, 2⟩, ⟨2, 2⟩, ⟨3, 2⟩]⟩⟩ 0 ⟨⟨4, 1⟩⟩ (by decide)

/-- C5: for every evaluation of length `n ≥ 2` and twiddle tree whose inverse-twiddle
table has size at least `2^(log2 n)`, `fold_line` selects the sub-table offset
`table_size - 2^(log2 n)` and returns a new Secure Column of exactly 4 coordinate
columns, each of length `n / 2`, together with the input domain doubled. -/
theorem C5_fold_line_shape (combine : QM31 → QM31 → M31 → QM31 → QM31)
    (st : GpuState) (ev : LineEvaluation) (alpha : QM31) (tw : TwiddleTree)
    (f : Fin 4 → List M31) (itw : List M31) (hwf : st.WF)
    (hc : ∀ j, st.read ((ev.values.columns j).device_ptr) = some (f j) ∧
      (f j).length = ev.len)
    (htw : st.read tw.itwiddles.device_ptr = some itw)
    (hsz : tw.itwiddles.size = itw.length)
    (h2 : 2 ≤ ev.len)
    (hbig : 2 ^ Nat.log2 ev.len ≤ tw.itwiddles.size) :
    ∃ out stF, CudaBackend.fold_line combine st ev alpha tw = .ok (out, stF) ∧
      out.domain = ev.domain.double ∧
      (∀ j, (out.values.columns j).size = ev.len / 2) ∧
      (∀ j, stF.read ((out.values.columns j).device_ptr) =
          some (foldOut combine f itw (tw.itwiddles.size - 2 ^ Nat.log2 ev.len)
            alpha ev.len j) ∧
        (foldOut combine f itw (tw.itwiddles.size - 2 ^ Nat.log2 ev.len) alpha
          ev.len j).length = ev.len / 2) := by
  rw [hsz] at hbig ⊢
  have hmaster := fold_line_eval combine st ev alpha tw f itw hwf hc htw hsz h2 hbig
  refine ⟨_, _, hmaster, rfl, ?_, ?_⟩
  · intro j
    fin_cases j <;> rfl
  · intro j
    have hreads := fState_read_cols st combine f itw
      (itw.length - 2 ^ Nat.log2 ev.len) alpha ev.len
    fin_cases j
    · exact ⟨hreads.1, foldOut_length ..⟩
    · exact ⟨hreads.2.1, foldOut_length ..⟩
    · exact ⟨hreads.2.2.1, foldOut_length ..⟩
    · exact ⟨hreads.2.2.2, foldOut_length ..⟩

/-- Witness for C5 at a concrete length-2 evaluation with a size-2 twiddle table. -/
theorem C5_fold_line_shape_witness :
    ∃ out stF, CudaBackend.fold_line (fun e _ _ _ => e)
        ⟨5, [(0, [1, 2]), (1, [3, 4]), (2, [5, 6]), (3, [7, 8]), (4, [9, 10])]⟩
        ⟨⟨1⟩, ⟨![⟨0, 2⟩, ⟨1, 2⟩, ⟨2, 2⟩, ⟨3, 2⟩]⟩⟩ 0 ⟨⟨4, 2⟩⟩ = .ok (out, stF) ∧
      out.domain = LineDomain.double ⟨1⟩ ∧
      (∀ j, (out.values.columns j).size =
        (⟨⟨1⟩, ⟨![⟨0, 2⟩, ⟨1, 2⟩, ⟨2, 2⟩, ⟨3, 2⟩]⟩⟩ : LineEvaluation).len / 2) ∧
      (∀ j, stF.read ((out.values.columns j).device_ptr) =
          some (foldOut (fun e _ _ _ => e) ![[1, 2], [3, 4], [5, 6], [7, 8]] [9, 10]
            ((2 : Nat) - 2 ^ Nat.log2
              (⟨⟨1⟩, ⟨![⟨0, 2⟩, ⟨1, 2⟩, ⟨2, 2⟩, ⟨3, 2⟩]⟩⟩ : LineEvaluation).len) 0
            (⟨⟨1⟩, ⟨![⟨0, 2⟩, ⟨1, 2⟩, ⟨2, 2⟩, ⟨3, 2⟩]⟩⟩ : LineEvaluation).len j) ∧
        (foldOut (fun e _ _ _ => e) ![[1, 2], [3, 4], [5, 6], [7, 8]] [9, 10]
            ((2 : Nat) - 2 ^ Nat.log2
              (⟨⟨1⟩, ⟨![⟨0, 2⟩, ⟨1, 2⟩, ⟨2, 2⟩, ⟨3, 2⟩]⟩⟩ : LineEvaluation).len) 0
            (⟨⟨1⟩, ⟨![⟨0, 2⟩, ⟨1, 2⟩, ⟨2, 2⟩, ⟨3, 2⟩]⟩⟩ : LineEvaluation).len j).length =
          (⟨⟨1⟩, ⟨![⟨0, 2⟩, ⟨1, 2⟩, ⟨2, 2⟩, ⟨3, 2⟩]⟩⟩ : LineEvaluation).len / 2) :=
  C5_fold_line_shape (fun e _ _ _ => e)
    ⟨5, [(0, [1, 2]), (1, [3, 4]), (2, [5, 6]), (3, [7, 8]), (4, [9, 10])]⟩
    ⟨⟨1⟩, ⟨![⟨0, 2⟩, ⟨1, 2⟩, ⟨2, 2⟩, ⟨3, 2⟩]⟩⟩ 0 ⟨⟨4, 2⟩⟩
    ![[1, 2], [3, 4], [5, 6], [7, 8]] [9, 10] (by decide) (by decide) (by decide)
    (by decide) (by decide)
    (by show 2 ^ Nat.log2 2 ≤ 2; norm_num [Nat.log2])

/-- C9: neither `fold_line` nor `decompose` mutates its input: after the call every
input coordinate column still holds the same elements, and each output column is a
fresh allocation whose device pointer differs from every input column pointer. -/
theorem C9_frame_freshness (combine : QM31 → QM31 → M31 → QM31 → QM31)
    (st : GpuState) (evL : LineEvaluation) (alpha : QM31) (tw : TwiddleTree)
    (fL : Fin 4 → List M31) (itw : List M31) (evD : SecureEvaluation)
    (fD : Fin 4 → List M31) (m : Nat) (hwf : st.WF)
    (hcL : ∀ j, st.read ((evL.values.columns j).device_ptr) = some (fL j) ∧
      (fL j).length = evL.len)
    (htw : st.read tw.itwiddles.device_ptr = some itw)
    (hsz : tw.itwiddles.size = itw.length)
    (h2 : 2 ≤ evL.len)
    (hbig : 2 ^ Nat.log2 evL.len ≤ itw.length)
    (hcD : ∀ j, st.read ((evD.columns j).device_ptr) = some (fD j) ∧
      (evD.columns j).size = m ∧ (fD j).length = m) :
    (∃ out stF, CudaBackend.fold_line combine st evL alpha tw = .ok (out, stF) ∧
      (∀ j, stF.read ((evL.values.columns j).device_ptr) = some (fL j)) ∧
      (∀ j i, (out.values.columns j).device_ptr ≠
        (evL.values.columns i).device_ptr)) ∧
    (∃ g lam stG, CudaBackend.decompose st evD = some ((g, lam), stG) ∧
      (∀ j, stG.read ((evD.columns j).device_ptr) = some (fD j)) ∧
      (∀ j i, (g.columns j).device_ptr ≠ (evD.columns i).device_ptr)) := by
  constructor
  · refine ⟨_, _, fold_line_eval combine st evL alpha tw fL itw hwf hcL htw hsz h2
      hbig, ?_, ?_⟩
    · intro j
      rw [fState_read_old _ _ _ _ _ _ _ _ (read_lt_of_WF hwf (hcL j).1)]
      exact (hcL j).1
    · intro j i
      have hlt := read_lt_of_WF hwf (hcL i).1
      fin_cases j
      · show st.nextPtr ≠ (evL.values.columns i).device_ptr
        omega
      · show st.nextPtr + 1 ≠ (evL.values.columns i).device_ptr
        omega
      · show st.nextPtr + 2 ≠ (evL.values.columns i).device_ptr
        omega
      · show st.nextPtr + 3 ≠ (evL.values.columns i).device_ptr
        omega
  · refine ⟨_, _, _, decompose_eval st evD fD m hwf hcD, ?_, ?_⟩
    · intro j
      rw [dState_read_old _ _ _ _ (read_lt_of_WF hwf (hcD j).1)]
      exact (hcD j).1
    · intro j i
      have hlt := read_lt_of_WF hwf (hcD i).1
      fin_cases j
      · show st.nextPtr ≠ (evD.columns i).device_ptr
        omega
      · show st.nextPtr + 1 ≠ (evD.columns i).device_ptr
        omega
      · show st.nextPtr + 2 ≠ (evD.columns i).device_ptr
        omega
      · show st.nextPtr + 3 ≠ (evD.columns i).device_ptr
        omega

theorem dLam_of_lt {f : Fin 4 → List M31} {n : Nat} (hn : n < U32)
    (hlen : ∀ j, (f j).length = n) :
    dLam f n = QM31.divByBase
      (QM31.from_m31 (f 0).sum (f 1).sum (f 2).sum (f 3).sum) ((n : Nat) : M31) := by
  unfold dLam dSums
  rw [Nat.mod_eq_of_lt hn, take_all (le_of_eq (hlen 0)), take_all (le_of_eq (hlen 1)),
    take_all (le_of_eq (hlen 2)), take_all (le_of_eq (hlen 3))]

/-- C6 (amended to evaluation lengths below 2^32, the range of the boundary's u32
count type): `decompose` returns `lambda` equal to the SecureField assembled from
the four coordinate-column sums divided by `n` promoted into the extension field,
and returns `g` over the same domain with `g[c][i] = f[c][i] - lambda_c`. -/
theorem C6_decompose_formula (st : GpuState) (ev : SecureEvaluation)
    (f : Fin 4 → List M31) (n : Nat) (hwf : st.WF) (hn1 : 1 ≤ n) (hn : n < U32)
    (hc : ∀ j, st.read ((ev.columns j).device_ptr) = some (f j) ∧
      (ev.columns j).size = n ∧ (f j).length = n) :
    ∃ g stF, CudaBackend.decompose st ev = some ((g,
        QM31.divByBase (QM31.from_m31 (f 0).sum (f 1).sum (f 2).sum (f 3).sum)
          ((n : Nat) : M31)), stF) ∧
      g.domain = ev.domain ∧
      (∀ j, (g.columns j).size = n) ∧
      (∀ j, stF.read ((g.columns j).device_ptr) = some ((f j).map (fun x =>
        x - coordOf j (QM31.divByBase
          (QM31.from_m31 (f 0).sum (f 1).sum (f 2).sum (f 3).sum)
          ((n : Nat) : M31))))) := by
  have hlen : ∀ j, (f j).length = n := fun j => (hc j).2.2
  have hl := dLam_of_lt hn hlen
  have hmaster := decompose_eval st ev f n hwf hc
  rw [hl] at hmaster
  refine ⟨_, _, hmaster, rfl, ?_, ?_⟩
  · intro j
    fin_cases j <;> rfl
  · intro j
    have hreads := dState_read_cols st f n
    rw [← hl]
    fin_cases j
    · exact hreads.1
    · exact hreads.2.1
    · exact hreads.2.2.1
    · exact hreads.2.2.2

/-- Witness for the amended C6 at a concrete length-1 evaluation. -/
theorem C6_decompose_formula_witness :
    ∃ g stF, CudaBackend.decompose ⟨4, [(0, [5]), (1, [6]), (2, [7]), (3, [8])]⟩
        ⟨⟨0⟩, ⟨![⟨0, 1⟩, ⟨1, 1⟩, ⟨2, 1⟩, ⟨3, 1⟩]⟩⟩ = some ((g,
        QM31.divByBase (QM31.from_m31 (![[5], [6], [7], [8]] 0).sum
          (![[5], [6], [7], [8]] 1).sum (![[5], [6], [7], [8]] 2).sum
          (![[5], [6], [7], [8]] 3).sum) (((1 : Nat) : Nat) : M31)), stF) ∧
      g.domain = (⟨⟨0⟩, ⟨![⟨0, 1⟩, ⟨1, 1⟩, ⟨2, 1⟩, ⟨3, 1⟩]⟩⟩ : SecureEvaluation).domain ∧
      (∀ j, (g.columns j).size = 1) ∧
      (∀ j, stF.read ((g.columns j).device_ptr) =
        some ((![[5], [6], [7], [8]] j).map (fun x =>
          x - coordOf j (QM31.divByBase (QM31.from_m31 (![[5], [6], [7], [8]] 0).sum
            (![[5], [6], [7], [8]] 1).sum (![[5], [6], [7], [8]] 2).sum
            (![[5], [6], [7], [8]] 3).sum) (((1 : Nat) : Nat) : M31))))) :=
  C6_decompose_formula ⟨4, [(0, [5]), (1, [6]), (2, [7]), (3, [8])]⟩
    ⟨⟨0⟩, ⟨![⟨0, 1⟩, ⟨1, 1⟩, ⟨2, 1⟩, ⟨3, 1⟩]⟩⟩ ![[5], [6], [7], [8]] 1
    (by decide) (by decide) (by decide) (by decide)

/-- Counterexample to C6 as stated for every `n ≥ 1`: at length `n = 2^32` the
divisor `eval.len() as u32` wraps to 0 and the device sums reduce 0 elements, so
`decompose` succeeds but its `lambda` differs from the claimed value (the column
sums divided by `2^32` promoted into the field, which is division by 2). -/
theorem C6_counterexample :
    ∃ r stF,
      CudaBackend.decompose
        ⟨4, [(0, (1 : M31) :: List.replicate (U32 - 1) 0),
             (1, List.replicate U32 (0 : M31)), (2, List.replicate U32 (0 : M31)),
             (3, List.replicate U32 (0 : M31))]⟩
        ⟨⟨32⟩, ⟨![⟨0, U32⟩, ⟨1, U32⟩, ⟨2, U32⟩, ⟨3, U32⟩]⟩⟩ = some (r, stF) ∧
      r.2 ≠ QM31.divByBase
        (QM31.from_m31 ((1 : M31) :: List.replicate (U32 - 1) 0).sum
          (List.replicate U32 (0 : M31)).sum (List.replicate U32 (0 : M31)).sum
          (List.replicate U32 (0 : M31)).sum) ((U32 : Nat) : M31) := by
  have hlen0 : ((1 : M31) :: List.replicate (U32 - 1) 0).length = U32 := by
    rw [List.length_cons, List.length_replicate]
    show (4294967296 : Nat) - 1 + 1 = 4294967296
    norm_num
  have hlenz : (List.replicate U32 (0 : M31)).length = U32 := List.length_replicate ..
  have hwf : GpuState.WF ⟨4, [(0, (1 : M31) :: List.replicate (U32 - 1) 0),
      (1, List.replicate U32 (0 : M31)), (2, List.replicate U32 (0 : M31)),
      (3, List.replicate U32 (0 : M31))]⟩ := by
    intro e he
    simp only [List.mem_cons, List.not_mem_nil, or_false] at he
    rcases he with rfl | rfl | rfl | rfl
    · exact (by norm_num : (0 : Nat) < 4)
    · exact (by norm_num : (1 : Nat) < 4)
    · exact (by norm_num : (2 : Nat) < 4)
    · exact (by norm_num : (3 : Nat) < 4)
  have hc : ∀ j : Fin 4, GpuState.read ⟨4, [(0, (1 : M31) :: List.replicate (U32 - 1) 0),
      (1, List.replicate U32 (0 : M31)), (2, List.replicate U32 (0 : M31)),
      (3, List.replicate U32 (0 : M31))]⟩
        (((⟨⟨32⟩, ⟨![⟨0, U32⟩, ⟨1, U32⟩, ⟨2, U32⟩, ⟨3, U32⟩]⟩⟩ :
          SecureEvaluation).columns j).device_ptr) =
        some (![(1 : M31) :: List.replicate (U32 - 1) 0, List.replicate U32 0,
          List.replicate U32 0, List.replicate U32 0] j) ∧
      ((⟨⟨32⟩, ⟨![⟨0, U32⟩, ⟨1, U32⟩, ⟨2, U32⟩, ⟨3, U32⟩]⟩⟩ :
          SecureEvaluation).columns j).size = U32 ∧
      (![(1 : M31) :: List.replicate (U32 - 1) 0, List.replicate U32 0,
          List.replicate U32 0, List.replicate U32 0] j).length = U32 := by
    intro j
    fin_cases j
    · exact ⟨rfl, rfl, hlen0⟩
    · exact ⟨rfl, rfl, hlenz⟩
    · exact ⟨rfl, rfl, hlenz⟩
    · exact ⟨rfl, rfl, hlenz⟩
  have hmaster := decompose_eval
    ⟨4, [(0, (1 : M31) :: List.replicate (U32 - 1) 0),
         (1, List.replicate U32 (0 : M31)), (2, List.replicate U32 (0 : M31)),
         (3, List.replicate U32 (0 : M31))]⟩
    ⟨⟨32⟩, ⟨![⟨0, U32⟩, ⟨1, U32⟩, ⟨2, U32⟩, ⟨3, U32⟩]⟩⟩
    ![(1 : M31) :: List.replicate (U32 - 1) 0, List.replicate U32 0,
      List.replicate U32 0, List.replicate U32 0] U32 hwf hc
  refine ⟨_, _, hmaster, ?_⟩
  intro hEq
  have hdlam : dLam ![(1 : M31) :: List.replicate (U32 - 1) 0, List.replicate U32 0,
      List.replicate U32 0, List.replicate U32 0] U32 = QM31.from_m31 0 0 0 0 := by
    unfold dLam dSums
    rw [Nat.mod_self]
    simp only [List.take_zero, List.sum_nil, Nat.cast_zero]
    simp [QM31.divByBase, QM31.from_m31, QM31.c00, QM31.c01, QM31.c10, QM31.c11]
  have hsum0 : ((1 : M31) :: List.replicate (U32 - 1) 0).sum = 1 := by
    rw [List.sum_cons, List.sum_replicate, smul_zero, add_zero]
  have hsumz : (List.replicate U32 (0 : M31)).sum = 0 := by
    rw [List.sum_replicate, smul_zero]
  have hcast : ((U32 : Nat) : M31) = 2 := by decide
  rw [hdlam, hsum0, hsumz, hcast] at hEq
  have hc00 := congrArg QM31.c00 hEq
  simp only [QM31.divByBase, QM31.from_m31, QM31.c00, one_mul] at hc00
  exact inv_ne_zero (by decide : (2 : M31) ≠ 0) hc00.symm

/-- Helper: a corrected-column coordinate sum, divided again by the same length,
vanishes — both when the promoted length is zero (inverse of zero is zero) and when
it is a unit (exact cancellation in the prime field). -/
theorem corrected_coord_zero (s : M31) (m : M31) (k : Nat) (hk : ((k : Nat) : M31) = m) :
    (s - k • (s * m⁻¹)) * m⁻¹ = 0 := by
  by_cases hm : m = 0
  · subst hm
    simp
  · rw [nsmul_eq_mul, hk, mul_comm m (s * m⁻¹), mul_assoc, inv_mul_cancel₀ hm,
      mul_one, sub_self, zero_mul]

/-- C8 (amended to evaluation lengths below 2^32, the range of the boundary's u32
count type): when all four coordinate-column sums are zero, `decompose` returns
`lambda` equal to the additive identity; and re-decomposing the corrected output of
a previous `decompose` always yields `lambda = 0`. -/
theorem C8_zero_mean (st : GpuState) (ev : SecureEvaluation) (f : Fin 4 → List M31)
    (n : Nat) (hwf : st.WF) (hn1 : 1 ≤ n) (hn : n < U32)
    (hc : ∀ j, st.read ((ev.columns j).device_ptr) = some (f j) ∧
      (ev.columns j).size = n ∧ (f j).length = n) :
    ((∀ j, (f j).sum = 0) →
      ∃ r stF, CudaBackend.decompose st ev = some (r, stF) ∧ r.2 = 0) ∧
    (∀ g lam stF, CudaBackend.decompose st ev = some ((g, lam), stF) →
      ∃ r stG, CudaBackend.decompose stF g = some (r, stG) ∧ r.2 = 0) := by
  have hlen : ∀ j, (f j).length = n := fun j => (hc j).2.2
  have hmaster := decompose_eval st ev f n hwf hc
  constructor
  · intro hz
    refine ⟨_, _, hmaster, ?_⟩
    show dLam f n = 0
    rw [dLam_of_lt hn hlen, hz 0, hz 1, hz 2, hz 3]
    show QM31.from_m31 (0 * ((n : Nat) : M31)⁻¹) (0 * ((n : Nat) : M31)⁻¹)
      (0 * ((n : Nat) : M31)⁻¹) (0 * ((n : Nat) : M31)⁻¹) = 0
    rw [zero_mul]
    rfl
  · intro g lam stF hEq
    rw [hmaster] at hEq
    simp only [Option.some.injEq, Prod.mk.injEq] at hEq
    obtain ⟨⟨hg, hlam⟩, hst⟩ := hEq
    subst hg
    subst hlam
    subst hst
    have hwf2 : (dState st f n).WF := dState_WF f n hwf
    have hlen2 : ∀ j : Fin 4, (dG f n j).length = n := by
      intro j
      unfold dG
      rw [List.length_map, hlen j]
    have hreads := dState_read_cols st f n
    have hc2 : ∀ j : Fin 4, (dState st f n).read
        (((⟨ev.domain, ⟨![⟨st.nextPtr, n⟩, ⟨st.nextPtr + 1, n⟩, ⟨st.nextPtr + 2, n⟩,
          ⟨st.nextPtr + 3, n⟩]⟩⟩ : SecureEvaluation).columns j).device_ptr) =
          some (dG f n j) ∧
        ((⟨ev.domain, ⟨![⟨st.nextPtr, n⟩, ⟨st.nextPtr + 1, n⟩, ⟨st.nextPtr + 2, n⟩,
          ⟨st.nextPtr + 3, n⟩]⟩⟩ : SecureEvaluation).columns j).size = n ∧
        (dG f n j).length = n := by
      intro j
      fin_cases j
      · exact ⟨hreads.1, rfl, hlen2 0⟩
      · exact ⟨hreads.2.1, rfl, hlen2 1⟩
      · exact ⟨hreads.2.2.1, rfl, hlen2 2⟩
      · exact ⟨hreads.2.2.2, rfl, hlen2 3⟩
    have hmaster2 := decompose_eval (dState st f n)
      ⟨ev.domain, ⟨![⟨st.nextPtr, n⟩, ⟨st.nextPtr + 1, n⟩, ⟨st.nextPtr + 2, n⟩,
        ⟨st.nextPtr + 3, n⟩]⟩⟩ (fun j => dG f n j) n hwf2 hc2
    refine ⟨_, _, hmaster2, ?_⟩
    show dLam (fun j => dG f n j) n = 0
    rw [dLam_of_lt hn hlen2]
    have hsum : ∀ j : Fin 4, (dG f n j).sum =
        (f j).sum - n • coordOf j (dLam f n) := by
      intro j
      unfold dG
      rw [sum_map_sub_const, hlen j]
    rw [hsum 0, hsum 1, hsum 2, hsum 3, dLam_of_lt hn hlen]
    show QM31.from_m31
      (((f 0).sum - n • ((f 0).sum * ((n : Nat) : M31)⁻¹)) * ((n : Nat) : M31)⁻¹)
      (((f 1).sum - n • ((f 1).sum * ((n : Nat) : M31)⁻¹)) * ((n : Nat) : M31)⁻¹)
      (((f 2).sum - n • ((f 2).sum * ((n : Nat) : M31)⁻¹)) * ((n : Nat) : M31)⁻¹)
      (((f 3).sum - n • ((f 3).sum * ((n : Nat) : M31)⁻¹)) * ((n : Nat) : M31)⁻¹) = 0
    rw [corrected_coord_zero (f 0).sum _ n rfl, corrected_coord_zero (f 1).sum _ n rfl,
      corrected_coord_zero (f 2).sum _ n rfl, corrected_coord_zero (f 3).sum _ n rfl]
    rfl

/-- Witness for the amended C8 at a concrete length-1 zero evaluation. -/
theorem C8_zero_mean_witness :
    ((∀ j, (![[(0 : M31)], [0], [0], [0]] j).sum = 0) →
      ∃ r stF, CudaBackend.decompose ⟨4, [(0, [0]), (1, [0]), (2, [0]), (3, [0])]⟩
        ⟨⟨0⟩, ⟨![⟨0, 1⟩, ⟨1, 1⟩, ⟨2, 1⟩, ⟨3, 1⟩]⟩⟩ = some (r, stF) ∧ r.2 = 0) ∧
    (∀ g lam stF, CudaBackend.decompose ⟨4, [(0, [0]), (1, [0]), (2, [0]), (3, [0])]⟩
        ⟨⟨0⟩, ⟨![⟨0, 1⟩, ⟨1, 1⟩, ⟨2, 1⟩, ⟨3, 1⟩]⟩⟩ = some ((g, lam), stF) →
      ∃ r stG, CudaBackend.decompose stF g = some (r, stG) ∧ r.2 = 0) :=
  C8_zero_mean ⟨4, [(0, [0]), (1, [0]), (2, [0]), (3, [0])]⟩
    ⟨⟨0⟩, ⟨![⟨0, 1⟩, ⟨1, 1⟩, ⟨2, 1⟩, ⟨3, 1⟩]⟩⟩ ![[(0 : M31)], [0], [0], [0]] 1
    (by decide) (by decide) (by decide) (by decide)

/-- Counterexample to C8 as stated for every `n ≥ 1`: at length `n = 2^32 + 5` the
device reduction sums only the first `n mod 2^32 = 5` elements, so an evaluation
whose true column sums are all zero still yields a nonzero `lambda`. -/
theorem C8_counterexample :
    ((((1 : M31) :: (List.replicate (U32 + 3) 0 ++ [-1])).sum = 0 ∧
      (List.replicate (U32 + 5) (0 : M31)).sum = 0) ∧
    ∃ r stF, CudaBackend.decompose
        ⟨4, [(0, (1 : M31) :: (List.replicate (U32 + 3) 0 ++ [-1])),
             (1, List.replicate (U32 + 5) (0 : M31)),
             (2, List.replicate (U32 + 5) (0 : M31)),
             (3, List.replicate (U32 + 5) (0 : M31))]⟩
        ⟨⟨33⟩, ⟨![⟨0, U32 + 5⟩, ⟨1, U32 + 5⟩, ⟨2, U32 + 5⟩, ⟨3, U32 + 5⟩]⟩⟩ =
      some (r, stF) ∧ r.2 ≠ 0) := by
  have hsum0 : (((1 : M31) :: (List.replicate (U32 + 3) 0 ++ [-1])).sum = (0 : M31)) := by
    rw [List.sum_cons, List.sum_append, List.sum_replicate, smul_zero,
      List.sum_cons, List.sum_nil]
    ring
  have hsumz : (List.replicate (U32 + 5) (0 : M31)).sum = 0 := by
    rw [List.sum_replicate, smul_zero]
  refine ⟨⟨hsum0, hsumz⟩, ?_⟩
  have hlen0 : ((1 : M31) :: (List.replicate (U32 + 3) 0 ++ [-1])).length = U32 + 5 := by
    rw [List.length_cons, List.length_append, List.length_replicate, List.length_cons,
      List.length_nil]
  have hlenz : (List.replicate (U32 + 5) (0 : M31)).length = U32 + 5 :=
    List.length_replicate ..
  have hwf : GpuState.WF ⟨4, [(0, (1 : M31) :: (List.replicate (U32 + 3) 0 ++ [-1])),
      (1, List.replicate (U32 + 5) (0 : M31)), (2, List.replicate (U32 + 5) (0 : M31)),
      (3, List.replicate (U32 + 5) (0 : M31))]⟩ := by
    intro e he
    simp only [List.mem_cons, List.not_mem_nil, or_false] at he
    rcases he with rfl | rfl | rfl | rfl
    · exact (by norm_num : (0 : Nat) < 4)
    · exact (by norm_num : (1 : Nat) < 4)
    · exact (by norm_num : (2 : Nat) < 4)
    · exact (by norm_num : (3 : Nat) < 4)
  have hc : ∀ j : Fin 4, GpuState.read
      ⟨4, [(0, (1 : M31) :: (List.replicate (U32 + 3) 0 ++ [-1])),
           (1, List.replicate (U32 + 5) (0 : M31)),
           (2, List.replicate (U32 + 5) (0 : M31)),
           (3, List.replicate (U32 + 5) (0 : M31))]⟩
        (((⟨⟨33⟩, ⟨![⟨0, U32 + 5⟩, ⟨1, U32 + 5⟩, ⟨2, U32 + 5⟩, ⟨3, U32 + 5⟩]⟩⟩ :
          SecureEvaluation).columns j).device_ptr) =
        some (![(1 : M31) :: (List.replicate (U32 + 3) 0 ++ [-1]),
          List.replicate (U32 + 5) 0, List.replicate (U32 + 5) 0,
          List.replicate (U32 + 5) 0] j) ∧
      ((⟨⟨33⟩, ⟨![⟨0, U32 + 5⟩, ⟨1, U32 + 5⟩, ⟨2, U32 + 5⟩, ⟨3, U32 + 5⟩]⟩⟩ :
          SecureEvaluation).columns j).size = U32 + 5 ∧
      (![(1 : M31) :: (List.replicate (U32 + 3) 0 ++ [-1]),
          List.replicate (U32 + 5) 0, List.replicate (U32 + 5) 0,
          List.replicate (U32 + 5) 0] j).length = U32 + 5 := by
    intro j
    fin_cases j
    · exact ⟨rfl, rfl, hlen0⟩
    · exact ⟨rfl, rfl, hlenz⟩
    · exact ⟨rfl, rfl, hlenz⟩
    · exact ⟨rfl, rfl, hlenz⟩
  have hmaster := decompose_eval
    ⟨4, [(0, (1 : M31) :: (List.replicate (U32 + 3) 0 ++ [-1])),
         (1, List.replicate (U32 + 5) (0 : M31)),
         (2, List.replicate (U32 + 5) (0 : M31)),
         (3, List.replicate (U32 + 5) (0 : M31))]⟩
    ⟨⟨33⟩, ⟨![⟨0, U32 + 5⟩, ⟨1, U32 + 5⟩, ⟨2, U32 + 5⟩, ⟨3, U32 + 5⟩]⟩⟩
    ![(1 : M31) :: (List.replicate (U32 + 3) 0 ++ [-1]), List.replicate (U32 + 5) 0,
      List.replicate (U32 + 5) 0, List.replicate (U32 + 5) 0] (U32 + 5) hwf hc
  refine ⟨_, _, hmaster, ?_⟩
  intro hzero
  have hc00 := congrArg QM31.c00 hzero
  simp only [dLam, dSums, QM31.divByBase, QM31.from_m31, QM31.c00,
    Matrix.cons_val_zero, Prod.fst_zero, Prod.snd_zero] at hc00
  have hmod : (U32 + 5) % U32 = 5 := by norm_num
  rw [hmod] at hc00
  have hsum5 : ((((1 : M31) :: (List.replicate (U32 + 3) 0 ++ [-1])).take 5).sum :
      M31) = 1 := by decide
  rw [hsum5, one_mul] at hc00
  exact inv_ne_zero (by decide : ((5 : Nat) : M31) ≠ 0) hc00

/-- C1: on every input on which both backends are defined (wellformed device state,
matching handle sizes, `n ≥ 2` with a large enough twiddle table for `fold_line`,
and a length in the u32 count range for `decompose`), the GPU backend's `fold_line`
and `decompose` produce results identical to the spec-modelled CPU reference
backend's: the materialized half-length fold output and the `lambda` plus all 4
corrected columns agree element-for-element after packing. -/
theorem C1_backend_equivalence (combine : QM31 → QM31 → M31 → QM31 → QM31)
    (st : GpuState) (evL : LineEvaluation) (alpha : QM31) (tw : TwiddleTree)
    (fL : Fin 4 → List M31) (itw : List M31) (evD : SecureEvaluation)
    (fD : Fin 4 → List M31) (m : Nat) (hwf : st.WF)
    (hcL : ∀ j, st.read ((evL.values.columns j).device_ptr) = some (fL j) ∧
      (fL j).length = evL.len)
    (htw : st.read tw.itwiddles.device_ptr = some itw)
    (hsz : tw.itwiddles.size = itw.length)
    (h2 : 2 ≤ evL.len)
    (hbig : 2 ^ Nat.log2 evL.len ≤ itw.length)
    (hcD : ∀ j, st.read ((evD.columns j).device_ptr) = some (fD j) ∧
      (evD.columns j).size = m ∧ (fD j).length = m)
    (hm1 : 1 ≤ m) (hmU : m < U32) :
    (∃ out stF, ∃ r : Fin 4 → List M31,
      CudaBackend.fold_line combine st evL alpha tw = .ok (out, stF) ∧
      (∀ j, stF.read ((out.values.columns j).device_ptr) = some (r j)) ∧
      CpuBackend.fold_line combine (zip4 (fL 0) (fL 1) (fL 2) (fL 3)) alpha itw =
        .ok (zip4 (r 0) (r 1) (r 2) (r 3))) ∧
    (∃ g lam stG, ∃ rD : Fin 4 → List M31,
      CudaBackend.decompose st evD = some ((g, lam), stG) ∧
      (∀ j, stG.read ((g.columns j).device_ptr) = some (rD j)) ∧
      CpuBackend.decompose (zip4 (fD 0) (fD 1) (fD 2) (fD 3)) =
        (zip4 (rD 0) (rD 1) (rD 2) (rD 3), lam)) := by
  constructor
  · have h01 : (fL 1).length = (fL 0).length := by rw [(hcL 1).2, (hcL 0).2]
    have h02 : (fL 2).length = (fL 0).length := by rw [(hcL 2).2, (hcL 0).2]
    have h03 : (fL 3).length = (fL 0).length := by rw [(hcL 3).2, (hcL 0).2]
    have hvlen : (zip4 (fL 0) (fL 1) (fL 2) (fL 3)).length = evL.len := by
      rw [zip4_length h01 h02 h03, (hcL 0).2]
    refine ⟨_, _, fun j => foldOut combine fL itw
        (itw.length - 2 ^ Nat.log2 evL.len) alpha evL.len j,
      fold_line_eval combine st evL alpha tw fL itw hwf hcL htw hsz h2 hbig,
      ?_, ?_⟩
    · intro j
      have hreads := fState_read_cols st combine fL itw
        (itw.length - 2 ^ Nat.log2 evL.len) alpha evL.len
      fin_cases j
      · exact hreads.1
      · exact hreads.2.1
      · exact hreads.2.2.1
      · exact hreads.2.2.2
    · unfold CpuBackend.fold_line
      rw [hvlen, if_neg (Nat.not_lt.mpr h2), if_neg (Nat.not_lt.mpr hbig)]
      congr 1
      simp only [foldOut]
      rw [zip4_map]
      refine (List.map_congr_left ?_).symm
      intro i hi
      rw [List.mem_range] at hi
      have hi0 : 2 * i < (fL 0).length := by
        rw [(hcL 0).2]
        omega
      have hi1 : 2 * i + 1 < (fL 0).length := by
        rw [(hcL 0).2]
        omega
      show combine (packAt fL (2 * i)) (packAt fL (2 * i + 1))
          (itw.getD (itw.length - 2 ^ Nat.log2 evL.len + i) 0) alpha =
        combine ((zip4 (fL 0) (fL 1) (fL 2) (fL 3)).getD (2 * i) 0)
          ((zip4 (fL 0) (fL 1) (fL 2) (fL 3)).getD (2 * i + 1) 0)
          (itw.getD (itw.length - 2 ^ Nat.log2 evL.len + i) 0) alpha
      rw [zip4_getD h01 h02 h03 hi0, zip4_getD h01 h02 h03 hi1]
      rfl
  · have h01 : (fD 1).length = (fD 0).length := by
      rw [(hcD 1).2.2, (hcD 0).2.2]
    have h02 : (fD 2).length = (fD 0).length := by
      rw [(hcD 2).2.2, (hcD 0).2.2]
    have h03 : (fD 3).length = (fD 0).length := by
      rw [(hcD 3).2.2, (hcD 0).2.2]
    have hlenD : ∀ j, (fD j).length = m := fun j => (hcD j).2.2
    refine ⟨_, _, _, fun j => dG fD m j, decompose_eval st evD fD m hwf hcD, ?_, ?_⟩
    · intro j
      have hreads := dState_read_cols st fD m
      fin_cases j
      · exact hreads.1
      · exact hreads.2.1
      · exact hreads.2.2.1
      · exact hreads.2.2.2
    · have hlam : QM31.divByBase (zip4 (fD 0) (fD 1) (fD 2) (fD 3)).sum
          (((zip4 (fD 0) (fD 1) (fD 2) (fD 3)).length : Nat) : M31) = dLam fD m := by
        rw [zip4_sum h01 h02 h03, zip4_length h01 h02 h03, (hcD 0).2.2,
          dLam_of_lt hmU hlenD]
      have hcpu : CpuBackend.decompose (zip4 (fD 0) (fD 1) (fD 2) (fD 3)) =
          ((zip4 (fD 0) (fD 1) (fD 2) (fD 3)).map (fun x => x - dLam fD m),
            dLam fD m) := by
        unfold CpuBackend.decompose
        rw [hlam]
      rw [hcpu]
      refine Prod.ext ?_ rfl
      show (zip4 (fD 0) (fD 1) (fD 2) (fD 3)).map (fun x => x - dLam fD m) =
        zip4 (dG fD m 0) (dG fD m 1) (dG fD m 2) (dG fD m 3)
      rw [← zip4_map_sub (dLam fD m) h01 h02 h03]
      rfl

/-- Witness for C1 at concrete inputs: a length-2 line evaluation for the fold and a
length-1 secure evaluation for decompose, over one wellformed device state. -/
theorem C1_backend_equivalence_witness :
    (∃ out stF, ∃ r : Fin 4 → List M31,
      CudaBackend.fold_line (fun e o _ a => e + o + a)
        ⟨9, [(0, [1]), (1, [2]), (2, [3]), (3, [4]), (4, [5, 6]), (5, [7, 8]),
             (6, [9, 10]), (7, [11, 12]), (8, [13, 14])]⟩
        ⟨⟨1⟩, ⟨![⟨4, 2⟩, ⟨5, 2⟩, ⟨6, 2⟩, ⟨7, 2⟩]⟩⟩ (QM31.from_m31 1 3 5 7)
        ⟨⟨8, 2⟩⟩ = .ok (out, stF) ∧
      (∀ j, stF.read ((out.values.columns j).device_ptr) = some (r j)) ∧
      CpuBackend.fold_line (fun e o _ a => e + o + a)
        (zip4 (![[5, 6], [7, 8], [9, 10], [11, 12]] 0)
          (![[5, 6], [7, 8], [9, 10], [11, 12]] 1)
          (![[5, 6], [7, 8], [9, 10], [11, 12]] 2)
          (![[5, 6], [7, 8], [9, 10], [11, 12]] 3)) (QM31.from_m31 1 3 5 7)
        [13, 14] = .ok (zip4 (r 0) (r 1) (r 2) (r 3))) ∧
    (∃ g lam stG, ∃ rD : Fin 4 → List M31,
      CudaBackend.decompose
        ⟨9, [(0, [1]), (1, [2]), (2, [3]), (3, [4]), (4, [5, 6]), (5, [7, 8]),
             (6, [9, 10]), (7, [11, 12]), (8, [13, 14])]⟩
        ⟨⟨0⟩, ⟨![⟨0, 1⟩, ⟨1, 1⟩, ⟨2, 1⟩, ⟨3, 1⟩]⟩⟩ = some ((g, lam), stG) ∧
      (∀ j, stG.read ((g.columns j).device_ptr) = some (rD j)) ∧
      CpuBackend.decompose (zip4 (![[1], [2], [3], [4]] 0) (![[1], [2], [3], [4]] 1)
          (![[1], [2], [3], [4]] 2) (![[1], [2], [3], [4]] 3)) =
        (zip4 (rD 0) (rD 1) (rD 2) (rD 3), lam)) :=
  C1_backend_equivalence (fun e o _ a => e + o + a)
    ⟨9, [(0, [1]), (1, [2]), (2, [3]), (3, [4]), (4, [5, 6]), (5, [7, 8]),
         (6, [9, 10]), (7, [11, 12]), (8, [13, 14])]⟩
    ⟨⟨1⟩, ⟨![⟨4, 2⟩, ⟨5, 2⟩, ⟨6, 2⟩, ⟨7, 2⟩]⟩⟩ (QM31.from_m31 1 3 5 7) ⟨⟨8, 2⟩⟩
    ![[5, 6], [7, 8], [9, 10], [11, 12]] [13, 14]
    ⟨⟨0⟩, ⟨![⟨0, 1⟩, ⟨1, 1⟩, ⟨2, 1⟩, ⟨3, 1⟩]⟩⟩ ![[1], [2], [3], [4]] 1
    (by decide) (by decide) (by decide) (by decide) (by decide)
    (by show 2 ^ Nat.log2 2 ≤ 2; norm_num [Nat.log2])
    (by decide) (by decide) (by decide)

/-- Witness for C9 at concrete inputs: a length-2 line evaluation and a length-1
secure evaluation over one wellformed device state. -/
theorem C9_frame_freshness_witness :
    (∃ out stF, CudaBackend.fold_line (fun e o _ a => e + o + a)
        ⟨9, [(0, [21]), (1, [22]), (2, [23]), (3, [24]), (4, [25, 26]), (5, [27, 28]),
             (6, [29, 30]), (7, [31, 32]), (8, [33, 34])]⟩
        ⟨⟨1⟩, ⟨![⟨4, 2⟩, ⟨5, 2⟩, ⟨6, 2⟩, ⟨7, 2⟩]⟩⟩ (QM31.from_m31 2 4 6 8)
        ⟨⟨8, 2⟩⟩ = .ok (out, stF) ∧
      (∀ j, stF.read (((⟨⟨1⟩, ⟨![⟨4, 2⟩, ⟨5, 2⟩, ⟨6, 2⟩, ⟨7, 2⟩]⟩⟩ :
          LineEvaluation).values.columns j).device_ptr) =
        some (![[25, 26], [27, 28], [29, 30], [31, 32]] j)) ∧
      (∀ j i, (out.values.columns j).device_ptr ≠
        (((⟨⟨1⟩, ⟨![⟨4, 2⟩, ⟨5, 2⟩, ⟨6, 2⟩, ⟨7, 2⟩]⟩⟩ :
          LineEvaluation).values.columns i).device_ptr))) ∧
    (∃ g lam stG, CudaBackend.decompose
        ⟨9, [(0, [21]), (1, [22]), (2, [23]), (3, [24]), (4, [25, 26]), (5, [27, 28]),
             (6, [29, 30]), (7, [31, 32]), (8, [33, 34])]⟩
        ⟨⟨0⟩, ⟨![⟨0, 1⟩, ⟨1, 1⟩, ⟨2, 1⟩, ⟨3, 1⟩]⟩⟩ = some ((g, lam), stG) ∧
      (∀ j, stG.read (((⟨⟨0⟩, ⟨![⟨0, 1⟩, ⟨1, 1⟩, ⟨2, 1⟩, ⟨3, 1⟩]⟩⟩ :
          SecureEvaluation).columns j).device_ptr) =
        some (![[21], [22], [23], [24]] j)) ∧
      (∀ j i, (g.columns j).device_ptr ≠
        (((⟨⟨0⟩, ⟨![⟨0, 1⟩, ⟨1, 1⟩, ⟨2, 1⟩, ⟨3, 1⟩]⟩⟩ :
          SecureEvaluation).columns i).device_ptr))) :=
  C9_frame_freshness (fun e o _ a => e + o + a)
    ⟨9, [(0, [21]), (1, [22]), (2, [23]), (3, [24]), (4, [25, 26]), (5, [27, 28]),
         (6, [29, 30]), (7, [31, 32]), (8, [33, 34])]⟩
    ⟨⟨1⟩, ⟨![⟨4, 2⟩, ⟨5, 2⟩, ⟨6, 2⟩, ⟨7, 2⟩]⟩⟩ (QM31.from_m31 2 4 6 8) ⟨⟨8, 2⟩⟩
    ![[25, 26], [27, 28], [29, 30], [31, 32]] [33, 34]
    ⟨⟨0⟩, ⟨![⟨0, 1⟩, ⟨1, 1⟩, ⟨2, 1⟩, ⟨3, 1⟩]⟩⟩ ![[21], [22], [23], [24]] 1
    (by decide) (by decide) (by decide) (by decide) (by decide)
    (by show 2 ^ Nat.log2 2 ≤ 2; norm_num [Nat.log2])
    (by decide)
